import Mathlib

/-!
Verification of the literal-marshalling codec of DecisionCentral.

The repository contains three near-duplicate copies of the codec:
  * src/flask/DecisionCentral.py   (`convertIn` / `convertOut`, the only copy
    that classifies bare strings with a lexer and hand-parses duration,
    date and time literals),
  * src/DecisionCentral.py         (HTTPServer variant: `convertAtString`,
    `convertIn`, `convertInWeb`, `convertOut` with the wrapped `@"..."`
    escape convention),
  * src/questioner.py              (`convertAtString`, `convertIn`,
    `convertOut`, textually identical to the HTTPServer variant except for
    the bool/None branches of `convertOut`).

External collaborators (the pySFeel lexer/parser, dateutil's parser and
timezone resolver) are not part of the repository; they are embedded as
parameters, or as functions explicitly modelled from the specification.

Python machine floats are modelled as exact rationals; all numeric values
appearing in the codec paths exercised here (milliseconds-resolution
durations, small integers) are exactly representable as IEEE doubles, so
the rational semantics agrees with CPython on these paths.
-/

namespace DecisionCentral

/-! ## Decimal digit helpers (used by the `%d` / `%f` printf embeddings) -/

/-- Numeric value of a decimal digit list (most significant first),
as computed by Python's `int` on a digit-only string. -/
def digitsVal (l : List Char) : Nat :=
  l.foldl (fun a c => 10 * a + (c.toNat - 48)) 0

/-- The character for a decimal digit value. -/
def digitChar : Nat → Char
  | 0 => '0'
  | 1 => '1'
  | 2 => '2'
  | 3 => '3'
  | 4 => '4'
  | 5 => '5'
  | 6 => '6'
  | 7 => '7'
  | 8 => '8'
  | _ => '9'

/-- Decimal digits, fuelled for structural recursion; correct whenever
`n < 10 ^ fuel`. -/
def natDigitsAux : Nat → Nat → List Char
  | 0, _ => []
  | fuel + 1, n =>
    if n < 10 then [digitChar n]
    else natDigitsAux fuel (n / 10) ++ [digitChar (n % 10)]

/-- Decimal digits of a natural number, most significant first
(the digits `%d` prints). -/
def natDigits (n : Nat) : List Char := natDigitsAux (n + 1) n

/-- Decimal rendering of a natural number. -/
def natStr (n : Nat) : String := String.mk (natDigits n)

/-- Python `'%d' % i` for an int: optional sign then decimal digits. -/
def intStr (i : Int) : String :=
  if i < 0 then "-" ++ natStr i.natAbs else natStr i.natAbs

/-- `natDigits n` left-padded with `'0'` to `k` characters. -/
def padDigits (k n : Nat) : List Char :=
  List.replicate (k - (natDigits n).length) '0' ++ natDigits n

/-! ## Embeddings of Python primitives -/

/-- Python errors raised on the codec paths. -/
inductive PyErr
  | valueError
  | indexError
deriving DecidableEq, Repr

/-- Python `str.split(sep)` for a one-character separator: splits on every
occurrence, keeping empty segments (`"D".split("D") == ["", ""]`). -/
def pySplit (sep : Char) : List Char → List (List Char)
  | [] => [[]]
  | c :: r =>
    if c = sep then [] :: pySplit sep r
    else
      match pySplit sep r with
      | [] => [[c]]
      | p :: ps => (c :: p) :: ps

/-- Digit-only core of Python `int(s)`. -/
def pyIntCore (d : List Char) : Except PyErr Int :=
  if d ≠ [] ∧ d.all Char.isDigit then .ok (digitsVal d) else .error .valueError

/-- Python `int(s)`: optional sign followed by at least one decimal digit,
otherwise a `ValueError`. -/
def pyInt (l : List Char) : Except PyErr Int :=
  if l.head? = some '-' then (pyIntCore (l.drop 1)).map (fun n => -n)
  else if l.head? = some '+' then pyIntCore (l.drop 1)
  else pyIntCore l

/-- Unsigned core of Python `float(s)` on plain decimal literals. -/
def pyFloatCore (d : List Char) : Except PyErr ℚ :=
  match pySplit '.' d with
  | [a] => if a ≠ [] ∧ a.all Char.isDigit then .ok (digitsVal a) else .error .valueError
  | [a, b] =>
    if (a ≠ [] ∨ b ≠ []) ∧ a.all Char.isDigit ∧ b.all Char.isDigit then
      .ok ((digitsVal a : ℚ) + (digitsVal b : ℚ) / (10 : ℚ) ^ b.length)
    else .error .valueError
  | _ => .error .valueError

/-- Python `float(s)` restricted to plain decimal literals
(optional sign, digits, optional fractional part), the only float strings
the codec ever builds; anything else is a `ValueError`. -/
def pyFloat (l : List Char) : Except PyErr ℚ :=
  if l.head? = some '-' then (pyFloatCore (l.drop 1)).map (fun q => -q)
  else if l.head? = some '+' then pyFloatCore (l.drop 1)
  else pyFloatCore l

/-- Python `int(x)` on a float: truncation toward zero
(floor for non-negative values, ceiling for negative ones). -/
def pyTrunc (q : ℚ) : Int := if 0 ≤ q then Int.floor q else Int.ceil q

/-- Python `x % m` on floats (`m > 0`): `x - m * floor(x / m)`. -/
def pyFmod (x m : ℚ) : ℚ := x - m * (Int.floor (x / m) : ℚ)

/-- Python `'%f' % x` for the non-negative, microsecond-exact seconds values
the codec prints: the value with exactly six digits after the point. -/
def formatF6 (q : ℚ) : String :=
  let n : Nat := (Int.floor (q * 1000000)).toNat
  natStr (n / 1000000) ++ "." ++ String.mk (padDigits 6 (n % 1000000))

/-! ## Literal classifier

The flask variant tokenizes each incoming string with `pySFeel.SFeelLexer`
(an external library) and dispatches on the type of the single resulting
token; zero or more than one token is the AMBIGUOUS case.  All codec
functions below therefore take the classifier as a parameter.
`classifySpec` is the concrete instance used for witnesses. -/

/-- Token types of the external lexer that `convertIn` dispatches on. -/
inductive TokKind
  | NUMBER
  | BOOLEAN
  | NAME
  | STRING
  | DTDURATION
  | YMDURATION
  | DATE
  | TIME
  | DATETIME
deriving DecidableEq, Repr

/-- Result of tokenizing one input string: exactly one token of a known
type, or the AMBIGUOUS case (zero or more than one token). -/
inductive Classified
  | one (k : TokKind)
  | many
deriving DecidableEq, Repr

/-- Consume one or more decimal digits followed by the marker character;
returns the remainder, or `none` if the component is absent. -/
def chompNum (l : List Char) (mark : Char) : Option (List Char) :=
  match l.span Char.isDigit with
  | ([], _) => none
  | (_, c :: r) => if c = mark then some r else none
  | (_, []) => none

/-- Consume a seconds component `digits ('.' digits)? 'S'`. -/
def chompSec (l : List Char) : Option (List Char) :=
  match l.span Char.isDigit with
  | ([], _) => none
  | (_, 'S' :: r) => some r
  | (_, '.' :: r) =>
    match r.span Char.isDigit with
    | ([], _) => none
    | (_, 'S' :: r2) => some r2
    | _ => none
  | _ => none

/-- Day-time duration token: optional `-`, `P`, optional days terminated by
`D`, optional `T` part with any non-empty subset of `H`/`M`/`S` components
(per spec section 4.3). -/
def isDtDurTok (l : List Char) : Bool :=
  let l1 := match l with | '-' :: r => r | _ => l
  match l1 with
  | 'P' :: r =>
    let p := match chompNum r 'D' with | some x => (x, true) | none => (r, false)
    match p with
    | ([], hasD) => hasD
    | ('T' :: r3, _) =>
      let p1 := match chompNum r3 'H' with | some x => (x, true) | none => (r3, false)
      let p2 := match chompNum p1.1 'M' with | some x => (x, true) | none => (p1.1, false)
      let p3 := match chompSec p2.1 with | some x => (x, true) | none => (p2.1, false)
      p3.1.isEmpty && (p1.2 || p2.2 || p3.2)
    | _ => false
  | _ => false

/-- Year-month duration token: optional `-`, `P`, integer terminated by
`Y`, optional integer terminated by `M` (per spec section 4.3). -/
def isYmDurTok (l : List Char) : Bool :=
  let l1 := match l with | '-' :: r => r | _ => l
  match l1 with
  | 'P' :: r =>
    match chompNum r 'Y' with
    | none => false
    | some r2 =>
      r2.isEmpty || (match chompNum r2 'M' with | some [] => true | _ => false)
  | _ => false

/-- Calendar-date token in the canonical `YYYY-MM-DD` shape. -/
def isDateChars : List Char → Bool
  | [y1, y2, y3, y4, '-', m1, m2, '-', d1, d2] =>
    [y1, y2, y3, y4, m1, m2, d1, d2].all Char.isDigit
  | _ => false

/-- Time-of-day core in the canonical `HH:MM:SS` shape. -/
def isTimeCore : List Char → Bool
  | [h1, h2, ':', m1, m2, ':', s1, s2] => [h1, h2, m1, m2, s1, s2].all Char.isDigit
  | _ => false

/-- Characters admitted in an `@`-suffixed zone name. -/
def isZoneChar (c : Char) : Bool :=
  c.isAlphanum || c = '/' || c = '_' || c = '+' || c = '-'

/-- Time token: canonical time, optionally suffixed by `@` and a zone name. -/
def isTimeTok (l : List Char) : Bool :=
  match pySplit '@' l with
  | [t] => isTimeCore t
  | [t, z] => isTimeCore t && !z.isEmpty && z.all isZoneChar
  | _ => false

/-- Date-time core `YYYY-MM-DDTHH:MM:SS`. -/
def isDateTimeCore (l : List Char) : Bool :=
  isDateChars (l.take 10) && l.get? 10 = some 'T' && isTimeCore (l.drop 11)

/-- Date-time token, optionally suffixed by `@` and a zone name. -/
def isDateTimeTok (l : List Char) : Bool :=
  match pySplit '@' l with
  | [t] => isDateTimeCore t
  | [t, z] => isDateTimeCore t && !z.isEmpty && z.all isZoneChar
  | _ => false

/-- Numeric token: digits with an optional fractional part. -/
def isNumberTok (l : List Char) : Bool :=
  match l.span Char.isDigit with
  | (a, []) => !a.isEmpty
  | (a, '.' :: b) => !a.isEmpty && !b.isEmpty && b.all Char.isDigit
  | _ => false

/-- Quoted string token. -/
def isStringTok (l : List Char) : Bool :=
  decide (2 ≤ l.length) && l.head? = some '"' && l.getLast? = some '"'
    && ((l.drop 1).dropLast.all (fun c => c ≠ '"'))

/-- Identifier token. -/
def isNameTok (l : List Char) : Bool :=
  match l with
  | [] => false
  | c :: r => (c.isAlpha || c = '_') && r.all (fun d => d.isAlphanum || d = '_')

/-- Modelled from the spec: the literal-level token classification performed
by the external `pySFeel.SFeelLexer` (spec section 4.1) — tokenize the
trimmed string with the literal lexical rules of S-FEEL and report the type
of the single token, or AMBIGUOUS when the string is not exactly one token.
Single-token classes are recognized by whole-string grammars, literal
classes taking priority over the identifier class. -/
def classifySpec (s : String) : Classified :=
  let l := s.data
  if l = "true".data ∨ l = "false".data then .one .BOOLEAN
  else if isDtDurTok l then .one .DTDURATION
  else if isYmDurTok l then .one .YMDURATION
  else if isDateTimeTok l then .one .DATETIME
  else if isDateChars l then .one .DATE
  else if isTimeTok l then .one .TIME
  else if isNumberTok l then .one .NUMBER
  else if isStringTok l then .one .STRING
  else if isNameTok l then .one .NAME
  else .many

/-! ## The value model

Python is unityped, so wire values (the result of `json.loads` or form
decoding) and decoded values share one type.  Floats are exact rationals
(see the file comment); `timedelta` carries its total length in
milliseconds, matching Python's microsecond-exact `timedelta` on every
value this codec constructs. -/

/-- Python values flowing through the codec. -/
inductive PyVal
  | num (q : ℚ)
  | int (n : Int)
  | bool (b : Bool)
  | none
  | str (s : String)
  | timedelta (ms : Int)
  | date (y mo d : Nat)
  | time (h mi s : Nat) (tz : Option Int)
  | datetime (y mo d h mi s : Nat) (tz : Option Int)
  | range (lowEnd : String) (low high : PyVal) (highEnd : String)
  | list (xs : List PyVal)
  | dict (xs : List (String × PyVal))

/-- Modelled from the spec: `dateutil.parser.parse(s).date()` (external
library, spec section 4.4 "a general calendar/time parser") on the
canonical `YYYY-MM-DD` strings admitted by the DATE token; out-of-range
components raise, as dateutil does. -/
def parseDateChars (l : List Char) : Option (Nat × Nat × Nat) :=
  if isDateChars l then
    let y := digitsVal (l.take 4)
    let mo := digitsVal ((l.drop 5).take 2)
    let d := digitsVal ((l.drop 8).take 2)
    if 1 ≤ mo ∧ mo ≤ 12 ∧ 1 ≤ d ∧ d ≤ 31 then some (y, mo, d) else none
  else none

/-- Modelled from the spec: the time-of-day part of the external dateutil
parser on canonical `HH:MM:SS` strings. -/
def parseTimeChars (l : List Char) : Option (Nat × Nat × Nat) :=
  if isTimeCore l then
    let h := digitsVal (l.take 2)
    let mi := digitsVal ((l.drop 3).take 2)
    let s := digitsVal ((l.drop 6).take 2)
    if h ≤ 23 ∧ mi ≤ 59 ∧ s ≤ 59 then some (h, mi, s) else none
  else none

/-- Modelled from the spec: the external dateutil parser on canonical
`YYYY-MM-DDTHH:MM:SS` strings. -/
def parseDateTimeChars (l : List Char) : Option (Nat × Nat × Nat × Nat × Nat × Nat) :=
  match parseDateChars (l.take 10), l.get? 10, parseTimeChars (l.drop 11) with
  | some (y, mo, d), some 'T', some (h, mi, s) => some (y, mo, d, h, mi, s)
  | _, _, _ => Option.none

/-! ## src/flask/DecisionCentral.py : `convertIn` -/

/-- The DTDURATION branch of the flask `convertIn`
(src/flask/DecisionCentral.py lines 244-277): strip an optional `-`, strip
`P`, then split on `D`, `H`, `M`, `S` exactly as the source does, with
Python's `int`/`float` raising on non-numeric components and `parts[1]`
raising `IndexError` when a split produced a single segment. -/
def dtDurParse (l : List Char) : Except PyErr PyVal := do
  let sp : Bool × List Char :=
    if l.head? = some '-' then (true, l.drop 1) else (false, l)
  let l2 := sp.2.drop 1                     -- skip P
  let dp : Int × List Char ← match l2.head? with
    | Option.none => Except.error PyErr.indexError   -- thisValue[0] on an empty string
    | some c =>
      if c ≠ 'T' then do
        let parts := pySplit 'D' l2
        let days ← if (parts.headD []).length > 0 then pyInt (parts.headD []) else pure 0
        match parts.get? 1 with
        | some p => pure (days, p)
        | Option.none => Except.error PyErr.indexError
      else pure ((0 : Int), l2)
  let sm : Int × Int ←
    if dp.2.length > 0 then do
      let l4 := dp.2.drop 1                 -- skip T
      let partsH := pySplit 'H' l4
      let sh : Int × List Char ←
        if partsH.length = 2 then do
          let s ←
            if (partsH.headD []).length > 0 then do
              pure ((← pyInt (partsH.headD [])) * 60 * 60)
            else pure (0 : Int)
          pure (s, partsH.getD 1 [])
        else pure ((0 : Int), l4)
      let partsM := pySplit 'M' sh.2
      let sm2 : Int × List Char ←
        if partsM.length = 2 then do
          let s ←
            if (partsM.headD []).length > 0 then do
              pure (sh.1 + (← pyInt (partsM.headD [])) * 60)
            else pure sh.1
          pure (s, partsM.getD 1 [])
        else pure (sh.1, sh.2)
      let partsS := pySplit 'S' sm2.2
      if partsS.length = 2 then
        if (partsS.headD []).length > 0 then do
          let sPart ← pyFloat (partsS.headD [])
          pure (sm2.1 + pyTrunc sPart, pyTrunc (sPart * 1000) % 1000)
        else pure (sm2.1, 0)
      else pure (sm2.1, 0)
    else pure ((0 : Int), (0 : Int))
  let td : Int := (dp.1 * 86400 + sm.1) * 1000 + sm.2
  pure (.timedelta (if sp.1 then -td else td))

/-- The YMDURATION branch of the flask `convertIn`
(src/flask/DecisionCentral.py lines 278-293).  Note the source tests
`thisValue == '-'` — the whole string against `'-'` — so for a negative
literal the test fails and the subsequent "skip P" drop removes the `-`
instead, leaving `P` glued to the years digits. -/
def ymDurParse (l : List Char) : Except PyErr PyVal := do
  let sp : Bool × List Char := if l = ['-'] then (true, l.drop 1) else (false, l)
  let l2 := sp.2.drop 1                     -- skip P
  let parts := pySplit 'Y' l2
  let y ← pyInt (parts.headD [])
  let months := y * 12
  let p1 : List Char ← match parts.get? 1 with
    | some p => pure p
    | Option.none => Except.error PyErr.indexError
  let parts2 := pySplit 'M' p1
  let months2 : Int ←
    if (parts2.headD []).length > 0 then do
      pure (months + (← pyInt (parts2.headD [])))
    else pure months
  pure (.int (if sp.1 then -months2 else months2))

/-- The DATETIME branch of the flask `convertIn`
(src/flask/DecisionCentral.py lines 294-305): split on `@`, parse the
primary with the external parser, and attach the zone's offset only when
the injected resolver (`dateutil.tz.gettz`) knows the zone name. -/
def dateTimeParseAt (gettz : String → Option Int) (l : List Char) : Except PyErr PyVal := do
  let parts := pySplit '@' l
  let t ← match parseDateTimeChars (parts.headD []) with
    | some t => pure t
    | Option.none => Except.error PyErr.valueError
  match t with
  | (y, mo, d, h, mi, s) =>
    match parts.get? 1 with
    | Option.none => pure (.datetime y mo d h mi s Option.none)
    | some z =>
      match gettz (String.mk z) with
      | Option.none => pure (.datetime y mo d h mi s Option.none)
      | some ofs => pure (.datetime y mo d h mi s (some ofs))

/-- The DATE branch of the flask `convertIn` (line 306-307). -/
def dateParse (l : List Char) : Except PyErr PyVal :=
  match parseDateChars l with
  | some (y, mo, d) => .ok (.date y mo d)
  | Option.none => .error .valueError

/-- The TIME branch of the flask `convertIn` (lines 308-319): like the
DATETIME branch but keeping only the time of day (`.timetz()`). -/
def timeParseAt (gettz : String → Option Int) (l : List Char) : Except PyErr PyVal := do
  let parts := pySplit '@' l
  let t ← match parseTimeChars (parts.headD []) with
    | some t => pure t
    | Option.none => Except.error PyErr.valueError
  match t with
  | (h, mi, s) =>
    match parts.get? 1 with
    | Option.none => pure (.time h mi s Option.none)
    | some z =>
      match gettz (String.mk z) with
      | Option.none => pure (.time h mi s Option.none)
      | some ofs => pure (.time h mi s (some ofs))

/-- The string case of the flask `convertIn`
(src/flask/DecisionCentral.py lines 198-321), with the lexer's
classification and the timezone resolver as parameters.  With zero or more
than one token the string is returned quote-wrapped unless it already both
begins and ends with `"`; otherwise the branch for the single token's type
runs.  A BOOLEAN token that is none of `true`/`false`/`null` falls off the
source's `elif` chain and so yields Python `None`. -/
def convertInFlaskStr (cl : String → Classified) (gettz : String → Option Int)
    (s : String) : Except PyErr PyVal :=
  if s = "" then .ok .none
  else
    match cl s with
    | .many =>
      if s.data.head? ≠ some '"' ∨ s.data.getLast? ≠ some '"' then
        .ok (.str ("\"" ++ s ++ "\""))
      else .ok (.str s)
    | .one .NUMBER => (pyFloat s.data).map .num
    | .one .BOOLEAN =>
      if s = "true" then .ok (.bool true)
      else if s = "false" then .ok (.bool false)
      else if s = "null" then .ok .none
      else .ok .none
    | .one .NAME =>
      if s = "true" then .ok (.bool true)
      else if s = "True" then .ok (.bool true)
      else if s = "TRUE" then .ok (.bool true)
      else if s = "false" then .ok (.bool false)
      else if s = "False" then .ok (.bool false)
      else if s = "FALSE" then .ok (.bool false)
      else if s = "none" then .ok .none
      else if s = "None" then .ok .none
      else if s = "null" then .ok .none
      else .ok (.str s)
    | .one .STRING => .ok (.str (String.mk ((s.data.drop 1).dropLast)))
    | .one .DTDURATION => dtDurParse s.data
    | .one .YMDURATION => ymDurParse s.data
    | .one .DATETIME => dateTimeParseAt gettz s.data
    | .one .DATE => dateParse s.data
    | .one .TIME => timeParseAt gettz s.data

mutual

/-- src/flask/DecisionCentral.py lines 189-324, `convertIn`.  A Python
`bool` is an `int` (`isinstance(True, int)`), so booleans hit the first
branch and come back as floats.  The `dict` and `list` branches convert
their elements in place but lack a `return`, so the function's value for a
container is `None` — element conversions are performed (errors propagate)
and then discarded, which is exactly what the caller
`data[variable] = convertIn(value)` observes. -/
def convertInFlask (cl : String → Classified) (gettz : String → Option Int) :
    PyVal → Except PyErr PyVal
  | .int n => .ok (.num n)
  | .bool b => .ok (.num (if b then 1 else 0))
  | .dict xs => do
    let _ ← convertInFlaskPairs cl gettz xs
    .ok .none
  | .list xs => do
    let _ ← convertInFlaskList cl gettz xs
    .ok .none
  | .str s => convertInFlaskStr cl gettz s
  | v => .ok v

/-- Element traversal of the flask `convertIn` list branch. -/
def convertInFlaskList (cl : String → Classified) (gettz : String → Option Int) :
    List PyVal → Except PyErr (List PyVal)
  | [] => .ok []
  | v :: r => do
    let w ← convertInFlask cl gettz v
    let ws ← convertInFlaskList cl gettz r
    .ok (w :: ws)

/-- Value traversal of the flask `convertIn` dict branch. -/
def convertInFlaskPairs (cl : String → Classified) (gettz : String → Option Int) :
    List (String × PyVal) → Except PyErr (List (String × PyVal))
  | [] => .ok []
  | (k, v) :: r => do
    let w ← convertInFlask cl gettz v
    let ws ← convertInFlaskPairs cl gettz r
    .ok ((k, w) :: ws)

end

/-- The JSON-payload decode loop of the flask route `decision_service`
(src/flask/DecisionCentral.py lines 734-736):
`for variable in data: data[variable] = convertIn(data[variable])`.
There is no `try`/`except` around it, so any exception `convertIn` raises
propagates out of the request handler. -/
def decisionServiceData (cl : String → Classified) (gettz : String → Option Int) :
    List (String × PyVal) → Except PyErr (List (String × PyVal))
  | [] => .ok []
  | (k, v) :: r => do
    let w ← convertInFlask cl gettz v
    let ws ← decisionServiceData cl gettz r
    .ok ((k, w) :: ws)

/-! ## ISO formatting (Python `isoformat`) and `str()` -/

/-- Python `date.isoformat()`: `YYYY-MM-DD`, zero-padded. -/
def dateIso (y mo d : Nat) : String :=
  String.mk (padDigits 4 y) ++ "-" ++ String.mk (padDigits 2 mo) ++ "-"
    ++ String.mk (padDigits 2 d)

/-- The `+HH:MM` / `-HH:MM` suffix `isoformat` emits for a UTC offset
given in minutes. -/
def offsetIso (o : Int) : String :=
  (if o < 0 then "-" else "+") ++ String.mk (padDigits 2 (o.natAbs / 60)) ++ ":"
    ++ String.mk (padDigits 2 (o.natAbs % 60))

/-- Python `time.isoformat()`: `HH:MM:SS`, plus the offset when the value
carries one. -/
def timeIso (h mi s : Nat) (tz : Option Int) : String :=
  String.mk (padDigits 2 h) ++ ":" ++ String.mk (padDigits 2 mi) ++ ":"
    ++ String.mk (padDigits 2 s)
    ++ (match tz with | Option.none => "" | some o => offsetIso o)

/-- Python `datetime.isoformat(sep='T')`. -/
def datetimeIso (y mo d h mi s : Nat) (tz : Option Int) : String :=
  dateIso y mo d ++ "T" ++ timeIso h mi s tz

/-- Fixed-point decimal rendering of a non-negative rational whose
denominator divides `10 ^ k`, with `k` decimal places (`k = 0` renders as
Python's float `str`, with a trailing `.0`). -/
def decDigitsStr (a : ℚ) (k : Nat) : String :=
  let n := (a * (10 : ℚ) ^ k).num.toNat
  if k = 0 then natStr n ++ ".0"
  else natStr (n / 10 ^ k) ++ "." ++ String.mk (padDigits k (n % 10 ^ k))

/-- Modelled from the spec: Python `str()` on a float (external CPython
float repr), for floats exactly representable as short decimals — the only
numeric payloads the Range encoder is exercised with here. -/
def floatRepr (q : ℚ) : String :=
  let a := |q|
  let sgn := if q < 0 then "-" else ""
  match (List.range 18).find? (fun k => (a * (10 : ℚ) ^ k).den = 1) with
  | some k => sgn ++ decDigitsStr a k
  | Option.none => sgn ++ "<float>"

/-- Python `str()` on the values a Range tuple can carry. -/
def pyStr : PyVal → String
  | .num q => floatRepr q
  | .int n => intStr n
  | .bool b => if b then "True" else "False"
  | .none => "None"
  | .str s => s
  | .timedelta _ => "<timedelta>"
  | .date y mo d => dateIso y mo d
  | .time h mi s tz => timeIso h mi s tz
  | .datetime y mo d h mi s tz => dateIso y mo d ++ " " ++ timeIso h mi s tz
  | .range _ _ _ _ => "<range>"
  | .list _ => "<list>"
  | .dict _ => "<dict>"

/-! ## The encoders (`convertOut`) -/

/-- The timedelta branch of the flask `convertOut`
(src/flask/DecisionCentral.py lines 334-341): the signed total is divided
down directly — no sign extraction — and every field, the seconds
included, prints with `%d` (truncation), so fractional seconds are
dropped. -/
def flaskTdStr (ms : Int) : String :=
  let duration : ℚ := (ms : ℚ) / 1000
  let secs : ℚ := pyFmod duration 60
  let d1 : Int := pyTrunc (duration / 60)
  let mins : Int := d1 % 60
  let d2 : Int := pyTrunc ((d1 : ℚ) / 60)
  let hours : Int := d2 % 24
  let days : Int := pyTrunc ((d2 : ℚ) / 24)
  "P" ++ intStr days ++ "DT" ++ intStr hours ++ "H" ++ intStr mins ++ "M"
    ++ intStr (pyTrunc secs) ++ "S"

/-- src/flask/DecisionCentral.py lines 326-350, `convertOut`.  As in
`convertIn`, the `dict` and `list` branches lack a `return`, so the
function yields `None` for containers.  A `datetime` is an instance of
`datetime.date`, so it is caught by the first branch; its `isoformat()`
uses the `T` separator, the same text the dedicated branch would emit. -/
def convertOutFlask : PyVal → PyVal
  | .date y mo d => .str (dateIso y mo d)
  | .datetime y mo d h mi s tz => .str (datetimeIso y mo d h mi s tz)
  | .time h mi s tz => .str (timeIso h mi s tz)
  | .timedelta ms => .str (flaskTdStr ms)
  | .dict _ => .none
  | .list _ => .none
  | v => v

/-- The timedelta branch shared (textually identical) by
src/DecisionCentral.py lines 166-178 and src/questioner.py lines 121-133:
extract the sign, decompose the magnitude by successive division, print
the seconds with `%f` (six decimals). -/
def srvTdStr (ms : Int) : String :=
  let duration : ℚ := (ms : ℚ) / 1000
  let sgn := if duration < 0 then "-" else ""
  let dq : ℚ := if duration < 0 then -duration else duration
  let secs : ℚ := pyFmod dq 60
  let d1 : Int := pyTrunc (dq / 60)
  let mins : Int := d1 % 60
  let d2 : Int := pyTrunc ((d1 : ℚ) / 60)
  let hours : Int := d2 % 24
  let days : Int := pyTrunc ((d2 : ℚ) / 24)
  sgn ++ "P" ++ intStr days ++ "DT" ++ intStr hours ++ "H" ++ intStr mins ++ "M"
    ++ formatF6 secs ++ "S"

/-- The int (year-month duration) branch shared by src/DecisionCentral.py
lines 185-192 and src/questioner.py lines 139-146: extract the sign, then
`years = int(total / 12)`, `months = total % 12`. -/
def srvYmStr (n : Int) : String :=
  let sgn := if n < 0 then "-" else ""
  let a : Int := if n < 0 then -n else n
  let years : Int := pyTrunc ((a : ℚ) / 12)
  let months : Int := a % 12
  sgn ++ "P" ++ intStr years ++ "Y" ++ intStr months ++ "M"

mutual

/-- src/DecisionCentral.py lines 161-207, `convertOut` (the Wrapped-mode
encoder): non-primitive values are re-serialized as `@"..."` text.  The
tuple (Range) branch concatenates
`'@"' + lowEnd + str(lowVal) + ' .. ' + str(highVal) + highEnd` — note
that, unlike every sibling branch, no closing `"` is appended. -/
def convertOutSrv : PyVal → PyVal
  | .date y mo d => .str ("@\"" ++ dateIso y mo d ++ "\"")
  | .datetime y mo d h mi s tz => .str ("@\"" ++ datetimeIso y mo d h mi s tz ++ "\"")
  | .time h mi s tz => .str ("@\"" ++ timeIso h mi s tz ++ "\"")
  | .timedelta ms => .str ("@\"" ++ srvTdStr ms ++ "\"")
  | .bool b => .str (if b then "true" else "false")
  | .int n => .str ("@\"" ++ srvYmStr n ++ "\"")
  | .range lowEnd lo hi highEnd => .str ("@\"" ++ lowEnd ++ pyStr lo ++ " .. " ++ pyStr hi ++ highEnd)
  | .none => .str "null"
  | .dict xs => .dict (convertOutSrvPairs xs)
  | .list xs => .list (convertOutSrvList xs)
  | v => v

/-- List traversal of the src `convertOut`. -/
def convertOutSrvList : List PyVal → List PyVal
  | [] => []
  | v :: r => convertOutSrv v :: convertOutSrvList r

/-- Dict traversal of the src `convertOut`. -/
def convertOutSrvPairs : List (String × PyVal) → List (String × PyVal)
  | [] => []
  | (k, v) :: r => (k, convertOutSrv v) :: convertOutSrvPairs r

end

mutual

/-- src/questioner.py lines 117-160, `convertOut`: identical to the
HTTPServer variant except that booleans and `None` are returned unchanged
(their branches precede the int branch, so a bool still never reaches the
year-month printer).  The tuple (Range) branch again omits the closing
quote. -/
def convertOutQst : PyVal → PyVal
  | .date y mo d => .str ("@\"" ++ dateIso y mo d ++ "\"")
  | .datetime y mo d h mi s tz => .str ("@\"" ++ datetimeIso y mo d h mi s tz ++ "\"")
  | .time h mi s tz => .str ("@\"" ++ timeIso h mi s tz ++ "\"")
  | .timedelta ms => .str ("@\"" ++ srvTdStr ms ++ "\"")
  | .bool b => .bool b
  | .none => .none
  | .int n => .str ("@\"" ++ srvYmStr n ++ "\"")
  | .range lowEnd lo hi highEnd => .str ("@\"" ++ lowEnd ++ pyStr lo ++ " .. " ++ pyStr hi ++ highEnd)
  | .dict xs => .dict (convertOutQstPairs xs)
  | .list xs => .list (convertOutQstList xs)
  | v => v

/-- List traversal of the questioner `convertOut`. -/
def convertOutQstList : List PyVal → List PyVal
  | [] => []
  | v :: r => convertOutQst v :: convertOutQstList r

/-- Dict traversal of the questioner `convertOut`. -/
def convertOutQstPairs : List (String × PyVal) → List (String × PyVal)
  | [] => []
  | (k, v) :: r => (k, convertOutQst v) :: convertOutQstPairs r

end

/-! ## src/DecisionCentral.py and src/questioner.py : `convertIn`

These two variants do not classify bare strings; they only re-parse
strings wrapped in the `@"..."` escape, delegating to the external
`pySFeel` parser (`sFeelParse`), which is passed here as the parameter
`sfp`. -/

/-- The test `newValue[0:2] == '@"' and newValue[-1] == '"'` guarding
`convertAtString` (the `and` short-circuits, so the `[-1]` of an empty
string is never evaluated). -/
def isAtString (s : String) : Bool :=
  s.data.take 2 = ['@', '"'] && s.data.getLast? = some '"'

/-- src/DecisionCentral.py lines 118-124 and src/questioner.py lines 84-90,
`convertAtString`: parse the inner text `thisString[2:-1]` with the
external S-FEEL parser; on a parse error the original wrapped string is
returned unchanged. -/
def convertAtString (sfp : String → Except Unit PyVal) (s : String) : PyVal :=
  match sfp (String.mk ((s.data.drop 2).dropLast)) with
  | .error _ => .str s
  | .ok v => v

mutual

/-- src/DecisionCentral.py lines 138-157 and src/questioner.py lines
94-113, `convertIn`: a top-level value is transformed only when it is a
dict, a list, or an `@"..."` string; in particular a top-level int (or
bool) is returned unchanged. -/
def convertInSrv (sfp : String → Except Unit PyVal) : PyVal → PyVal
  | .dict xs => .dict (convertInSrvPairs sfp xs)
  | .list xs => .list (convertInSrvList sfp xs)
  | .str s => if isAtString s then convertAtString sfp s else .str s
  | v => v

/-- The per-element conversion of the src `convertIn` dict/list branches:
ints become floats (and so do bools — `isinstance(True, int)` holds),
`@"..."` strings are re-parsed, containers recurse, everything else is
left as is. -/
def convertInSrvElem (sfp : String → Except Unit PyVal) : PyVal → PyVal
  | .int n => .num n
  | .bool b => .num (if b then 1 else 0)
  | .str s => if isAtString s then convertAtString sfp s else .str s
  | .dict xs => .dict (convertInSrvPairs sfp xs)
  | .list xs => .list (convertInSrvList sfp xs)
  | v => v

/-- List traversal of the src `convertIn`. -/
def convertInSrvList (sfp : String → Except Unit PyVal) : List PyVal → List PyVal
  | [] => []
  | v :: r => convertInSrvElem sfp v :: convertInSrvList sfp r

/-- Dict traversal of the src `convertIn`. -/
def convertInSrvPairs (sfp : String → Except Unit PyVal) :
    List (String × PyVal) → List (String × PyVal)
  | [] => []
  | (k, v) :: r => (k, convertInSrvElem sfp v) :: convertInSrvPairs sfp r

end

/-- Modelled from the spec: a year-month duration parse as section 4.3
specifies it — optional `-`, `P`, years, `Y`, optional months, `M`, value
`12 * years + months` with the sign applied to the combined total.  (Used
only inside the modelled external parser below; the repository's own
year-month parse is `ymDurParse`.) -/
def ymDurSpec (l : List Char) : Except PyErr PyVal := do
  let sp : Bool × List Char := match l with
    | '-' :: r => (true, r)
    | _ => (false, l)
  let l2 := sp.2.drop 1
  let parts := pySplit 'Y' l2
  let y ← pyInt (parts.headD [])
  let p1 : List Char ← match parts.get? 1 with
    | some p => pure p
    | Option.none => Except.error PyErr.indexError
  let parts2 := pySplit 'M' p1
  let months : Int ←
    if (parts2.headD []).length > 0 then do
      pure (y * 12 + (← pyInt (parts2.headD [])))
    else pure (y * 12)
  pure (.int (if sp.1 then -months else months))

/-- Modelled from the spec: the external `pySFeel` parser `sFeelParse`
applied to the inner text of an `@"..."` literal (spec sections 4.1-4.4):
it parses a single S-FEEL literal token to the corresponding value and
reports an error status for anything else (including a bare name, which
is an unknown-variable expression). -/
def sFeelParseModel (gettz : String → Option Int) (t : String) : Except Unit PyVal :=
  let branch : Except PyErr PyVal :=
    match classifySpec t with
    | .many => .error .valueError
    | .one .NUMBER => (pyFloat t.data).map .num
    | .one .BOOLEAN =>
      if t = "true" then .ok (.bool true)
      else if t = "false" then .ok (.bool false)
      else .ok .none
    | .one .NAME => .error .valueError
    | .one .STRING => .ok (.str (String.mk ((t.data.drop 1).dropLast)))
    | .one .DTDURATION => dtDurParse t.data
    | .one .YMDURATION => ymDurSpec t.data
    | .one .DATETIME => dateTimeParseAt gettz t.data
    | .one .DATE => dateParse t.data
    | .one .TIME => timeParseAt gettz t.data
  match branch with
  | .ok v => .ok v
  | .error _ => .error ()

/-- An empty timezone table, for witnesses where the resolver is
irrelevant. -/
def gettzEmpty : String → Option Int := fun _ => Option.none

/-- A one-entry timezone table resolving only `Australia/Sydney`
(to +11:00, i.e. 660 minutes), for the zone-handling witnesses. -/
def gettzSydney : String → Option Int :=
  fun z => if z = "Australia/Sydney" then some 660 else Option.none

/-- The classifier used for the malformed-duration scenario: as the claim
premises, it classifies the string "PxDT" as a single day-time-duration
token, and otherwise behaves like `classifySpec`. -/
def classifyPxDT : String → Classified :=
  fun s => if s = "PxDT" then .one .DTDURATION else classifySpec s

/-! ## Canonical duration literal shapes (used to state the general
duration theorems) -/

/-- The character list of a canonical day-time duration literal with a
six-digit fractional seconds field,
`[-]P{d}DT{h}H{m}M{s}.{ffffff}S` — the shape the Wrapped encoder prints. -/
def dtCanon (neg : Bool) (d h m s f : Nat) : List Char :=
  (if neg then ['-'] else []) ++ ('P' :: (natDigits d ++ ('D' :: ('T' :: (natDigits h
    ++ ('H' :: (natDigits m ++ ('M' :: (natDigits s ++ ('.' :: (padDigits 6 f ++ ['S'])))))))))))

/-- The character list of a canonical day-time duration literal with whole
seconds, `[-]P{d}DT{h}H{m}M{s}S`. -/
def dtCanonInt (neg : Bool) (d h m s : Nat) : List Char :=
  (if neg then ['-'] else []) ++ ('P' :: (natDigits d ++ ('D' :: ('T' :: (natDigits h
    ++ ('H' :: (natDigits m ++ ('M' :: (natDigits s ++ ['S'])))))))))

/-- The character list of a canonical non-negative year-month duration
literal `P{y}Y{m}M`. -/
def ymCanon (y m : Nat) : List Char :=
  'P' :: (natDigits y ++ ('Y' :: (natDigits m ++ ['M'])))

/-! # Lemma layer -/

theorem exbind_ok {α β : Type} (a : α) (f : α → Except PyErr β) :
    (Except.ok a : Except PyErr α) >>= f = f a := rfl

theorem exbind_error {α β : Type} (e : PyErr) (f : α → Except PyErr β) :
    (Except.error e : Except PyErr α) >>= f = Except.error e := rfl

theorem expure_bind {α β : Type} (a : α) (f : α → Except PyErr β) :
    (pure a : Except PyErr α) >>= f = f a := rfl

theorem pySplit_not_mem (sep : Char) : ∀ (l : List Char), sep ∉ l → pySplit sep l = [l]
  | [], _ => rfl
  | c :: r, h => by
    have hc : ¬c = sep := fun e => h (e ▸ List.mem_cons_self c r)
    have hr : sep ∉ r := fun m => h (List.mem_cons_of_mem c m)
    simp [pySplit, hc, pySplit_not_mem sep r hr]

theorem pySplit_append (sep : Char) :
    ∀ (a b : List Char), sep ∉ a →
      pySplit sep (a ++ sep :: b) = a :: pySplit sep b
  | [], b, _ => by simp [pySplit]
  | c :: r, b, h => by
    have hc : ¬c = sep := fun e => h (e ▸ List.mem_cons_self c r)
    have hr : sep ∉ r := fun m => h (List.mem_cons_of_mem c m)
    have ih := pySplit_append sep r b hr
    simp only [List.cons_append, pySplit, if_neg hc, List.append_eq, ih]

theorem digitChar_isDigit (k : Nat) : (digitChar k).isDigit = true := by
  unfold digitChar; split <;> decide

theorem digitChar_toNat (k : Nat) (hk : k ≤ 9) : (digitChar k).toNat = 48 + k := by
  interval_cases k <;> decide

theorem isDigit_toNat {c : Char} (h : c.isDigit = true) :
    48 ≤ c.toNat ∧ c.toNat ≤ 57 := by
  simp [Char.isDigit, Char.le_def] at h
  exact h

theorem digit_ne {c x : Char} (h : c.isDigit = true)
    (hx : x.toNat < 48 ∨ 57 < x.toNat) : c ≠ x := by
  intro e
  subst e
  have := isDigit_toNat h
  omega

theorem natDigitsAux_all_digit :
    ∀ (fuel n : Nat), ∀ c ∈ natDigitsAux fuel n, c.isDigit = true
  | 0, _, c, h => absurd h (List.not_mem_nil c)
  | fuel + 1, n, c, h => by
    unfold natDigitsAux at h
    by_cases h10 : n < 10
    · simp [h10] at h
      exact h ▸ digitChar_isDigit n
    · simp [h10, List.mem_append] at h
      rcases h with h | h
      · exact natDigitsAux_all_digit fuel (n / 10) c h
      · exact h ▸ digitChar_isDigit (n % 10)

theorem natDigits_all_digit (n : Nat) : ∀ c ∈ natDigits n, c.isDigit = true :=
  natDigitsAux_all_digit (n + 1) n

theorem natDigits_ne_nil (n : Nat) : natDigits n ≠ [] := by
  unfold natDigits natDigitsAux
  by_cases h10 : n < 10 <;> simp [h10]

theorem foldl_digits (l : List Char) : ∀ acc : Nat,
    l.foldl (fun a c => 10 * a + (c.toNat - 48)) acc
      = acc * 10 ^ l.length + digitsVal l := by
  induction l with
  | nil => intro acc; simp [digitsVal]
  | cons c r ih =>
    intro acc
    show r.foldl _ (10 * acc + (c.toNat - 48)) = _
    rw [ih]
    have : digitsVal (c :: r) = (c.toNat - 48) * 10 ^ r.length + digitsVal r := by
      show r.foldl _ (10 * 0 + (c.toNat - 48)) = _
      rw [ih]
      norm_num
    rw [this]
    simp [List.length_cons, pow_succ]
    ring

theorem digitsVal_append (a b : List Char) :
    digitsVal (a ++ b) = digitsVal a * 10 ^ b.length + digitsVal b := by
  show (a ++ b).foldl _ 0 = _
  rw [List.foldl_append, foldl_digits b]
  rfl

theorem digitsVal_replicate_zero (k : Nat) (l : List Char) :
    digitsVal (List.replicate k '0' ++ l) = digitsVal l := by
  rw [digitsVal_append]
  have : digitsVal (List.replicate k '0') = 0 := by
    induction k with
    | zero => rfl
    | succ j ih =>
      show (List.replicate (j + 1) '0').foldl _ 0 = 0
      rw [List.replicate_succ]
      show (List.replicate j '0').foldl _ (10 * 0 + ('0'.toNat - 48)) = 0
      have h0 : (10 * 0 + ('0'.toNat - 48)) = 0 := by decide
      rw [h0]
      exact ih
  rw [this]
  simp

theorem digitsVal_natDigitsAux :
    ∀ (fuel n : Nat), n < 10 ^ fuel → digitsVal (natDigitsAux fuel n) = n := by
  intro fuel
  induction fuel with
  | zero =>
    intro n h
    interval_cases n
    rfl
  | succ f ih =>
    intro n h
    unfold natDigitsAux
    by_cases h10 : n < 10
    · simp only [if_pos h10]
      show [digitChar n].foldl _ 0 = n
      simp [digitChar_toNat n (by omega)]
    · simp only [if_neg h10]
      rw [digitsVal_append]
      have hdiv : n / 10 < 10 ^ f := by
        rw [Nat.div_lt_iff_lt_mul (by omega)]
        calc n < 10 ^ (f + 1) := h
        _ = 10 ^ f * 10 := by rw [pow_succ]
      rw [ih (n / 10) hdiv]
      have : digitsVal [digitChar (n % 10)] = n % 10 := by
        show [digitChar (n % 10)].foldl _ 0 = n % 10
        simp [digitChar_toNat (n % 10) (by omega)]
      rw [this]
      simp
      omega

theorem digitsVal_natDigits (n : Nat) : digitsVal (natDigits n) = n :=
  digitsVal_natDigitsAux (n + 1) n
    (lt_of_lt_of_le (Nat.lt_pow_self (by omega) n) (Nat.pow_le_pow_right (by omega) (by omega)))

theorem natDigitsAux_length_le :
    ∀ (fuel n k : Nat), n < 10 ^ k → 1 ≤ k → (natDigitsAux fuel n).length ≤ k := by
  intro fuel
  induction fuel with
  | zero => intro n k _ _; simp [natDigitsAux]
  | succ f ih =>
    intro n k hn hk
    unfold natDigitsAux
    by_cases h10 : n < 10
    · simp only [if_pos h10, List.length_cons, List.length_nil]
      omega
    · simp only [if_neg h10, List.length_append, List.length_cons, List.length_nil]
      have hk2 : 2 ≤ k := by
        by_contra hlt
        have hk1 : k = 1 := by omega
        subst hk1
        simp at hn
        omega
      have hdiv : n / 10 < 10 ^ (k - 1) := by
        rw [Nat.div_lt_iff_lt_mul (by omega)]
        calc n < 10 ^ k := hn
        _ = 10 ^ (k - 1) * 10 := by
            rw [← pow_succ]
            congr 1
            omega
      have := ih (n / 10) (k - 1) hdiv (by omega)
      omega

theorem natDigits_length_le (n k : Nat) (hn : n < 10 ^ k) (hk : 1 ≤ k) :
    (natDigits n).length ≤ k :=
  natDigitsAux_length_le (n + 1) n k hn hk

theorem padDigits_length (k n : Nat) (hn : n < 10 ^ k) (hk : 1 ≤ k) :
    (padDigits k n).length = k := by
  unfold padDigits
  have := natDigits_length_le n k hn hk
  simp
  omega

theorem padDigits_val (k n : Nat) : digitsVal (padDigits k n) = n := by
  unfold padDigits
  rw [digitsVal_replicate_zero, digitsVal_natDigits]

theorem padDigits_all_digit (k n : Nat) : ∀ c ∈ padDigits k n, c.isDigit = true := by
  intro c hc
  unfold padDigits at hc
  rw [List.mem_append] at hc
  rcases hc with hc | hc
  · rw [List.eq_of_mem_replicate hc]
    decide
  · exact natDigits_all_digit n c hc

theorem pyIntCore_digits {l : List Char} (h0 : l ≠ [])
    (h : ∀ c ∈ l, c.isDigit = true) : pyIntCore l = .ok (digitsVal l) := by
  have hcond : l ≠ [] ∧ l.all Char.isDigit = true := ⟨h0, by simpa using h⟩
  unfold pyIntCore
  rw [if_pos hcond]

theorem head_not_sign {l : List Char} (h : ∀ c ∈ l, c.isDigit = true) :
    l.head? ≠ some '-' ∧ l.head? ≠ some '+' := by
  match l with
  | [] => exact ⟨by simp, by simp⟩
  | c :: r =>
    have hc := h c (List.mem_cons_self c r)
    constructor <;>
    · simp only [List.head?_cons, Option.some.injEq]
      intro e
      injection e with e2
      subst e2
      exact absurd hc (by decide)

theorem pyInt_digits {l : List Char} (h0 : l ≠ [])
    (h : ∀ c ∈ l, c.isDigit = true) : pyInt l = .ok (digitsVal l) := by
  obtain ⟨h1, h2⟩ := head_not_sign h
  unfold pyInt
  rw [if_neg h1, if_neg h2, pyIntCore_digits h0 h]

theorem pyInt_natDigits (n : Nat) : pyInt (natDigits n) = .ok n := by
  rw [pyInt_digits (natDigits_ne_nil n) (natDigits_all_digit n), digitsVal_natDigits]

theorem pyFloatCore_digits {l : List Char} (h0 : l ≠ [])
    (h : ∀ c ∈ l, c.isDigit = true) : pyFloatCore l = .ok (digitsVal l) := by
  have hdot : '.' ∉ l := by
    intro hm
    have := h '.' hm
    exact absurd this (by decide)
  have hcond : l ≠ [] ∧ l.all Char.isDigit = true := ⟨h0, by simpa using h⟩
  unfold pyFloatCore
  rw [pySplit_not_mem '.' l hdot]
  simp only [if_pos hcond]

theorem pyFloatCore_point {a b : List Char} (ha0 : a ≠ [])
    (ha : ∀ c ∈ a, c.isDigit = true) (hb : ∀ c ∈ b, c.isDigit = true) :
    pyFloatCore (a ++ '.' :: b) = .ok (digitsVal a + (digitsVal b : ℚ) / (10 : ℚ) ^ b.length) := by
  have hda : '.' ∉ a := fun hm => absurd (ha '.' hm) (by decide)
  have hdb : '.' ∉ b := fun hm => absurd (hb '.' hm) (by decide)
  have hcond : (a ≠ [] ∨ b ≠ []) ∧ a.all Char.isDigit = true ∧ b.all Char.isDigit = true :=
    ⟨Or.inl ha0, by simpa using ha, by simpa using hb⟩
  unfold pyFloatCore
  rw [pySplit_append '.' a b hda, pySplit_not_mem '.' b hdb]
  simp only [if_pos hcond]

theorem pyFloat_digits {l : List Char} (h0 : l ≠ [])
    (h : ∀ c ∈ l, c.isDigit = true) : pyFloat l = .ok (digitsVal l) := by
  obtain ⟨h1, h2⟩ := head_not_sign h
  unfold pyFloat
  rw [if_neg h1, if_neg h2, pyFloatCore_digits h0 h]

theorem pyFloat_point {a b : List Char} (ha0 : a ≠ [])
    (ha : ∀ c ∈ a, c.isDigit = true) (hb : ∀ c ∈ b, c.isDigit = true) :
    pyFloat (a ++ '.' :: b) = .ok (digitsVal a + (digitsVal b : ℚ) / (10 : ℚ) ^ b.length) := by
  have h1 : (a ++ '.' :: b).head? ≠ some '-' ∧ (a ++ '.' :: b).head? ≠ some '+' := by
    match a, ha0 with
    | c :: r, _ =>
      have hc := ha c (List.mem_cons_self c r)
      constructor <;>
      · simp only [List.cons_append, List.head?_cons, Option.some.injEq]
        intro e
        injection e with e2
        subst e2
        exact absurd hc (by decide)
  unfold pyFloat
  rw [if_neg h1.1, if_neg h1.2, pyFloatCore_point ha0 ha hb]

theorem pyTrunc_intCast (n : Int) : pyTrunc (n : ℚ) = n := by
  unfold pyTrunc
  split <;> simp

theorem pyTrunc_natCast (n : Nat) : pyTrunc (n : ℚ) = n := by
  have : ((n : Int) : ℚ) = (n : ℚ) := by push_cast; ring
  rw [← this, pyTrunc_intCast]

theorem pyTrunc_nat_add_frac (n : Nat) {f : ℚ} (hf0 : 0 ≤ f) (hf1 : f < 1) :
    pyTrunc ((n : ℚ) + f) = n := by
  unfold pyTrunc
  rw [if_pos (by positivity)]
  have : ((n : ℚ) + f) = (f + (n : ℤ)) := by push_cast; ring
  rw [this, Int.floor_add_int]
  rw [Int.floor_eq_zero_iff.mpr ⟨hf0, hf1⟩]
  simp

theorem floor_intCast_div_natCast (a : Int) (b : Nat) :
    ⌊(a : ℚ) / (b : ℚ)⌋ = a / b := by
  have := Rat.floor_intCast_div_natCast a b
  simpa using this

theorem pyTrunc_div_natCast (a : Int) (b : Nat) (ha : 0 ≤ a) :
    pyTrunc ((a : ℚ) / (b : ℚ)) = a / b := by
  unfold pyTrunc
  rw [if_pos (by positivity)]
  exact floor_intCast_div_natCast a b

theorem intStr_natCast (k : Nat) : intStr (k : Int) = natStr k := by
  unfold intStr
  rw [if_neg (by omega)]
  simp

theorem pyFmod_div_sixty (a : Int) :
    pyFmod ((a : ℚ) / 1000) 60 = ((a % 60000 : Int) : ℚ) / 1000 := by
  unfold pyFmod
  have h1 : ((a : ℚ) / 1000) / 60 = (a : ℚ) / ((60000 : Nat) : ℚ) := by
    push_cast
    ring
  rw [h1, floor_intCast_div_natCast a 60000]
  have h2 : a % 60000 = a - 60000 * (a / 60000) := by omega
  rw [h2]
  push_cast
  ring

theorem formatF6_div_1000 (k : Nat) :
    formatF6 ((k : ℚ) / 1000) = natStr (k / 1000) ++ "." ++ String.mk (padDigits 6 (k % 1000 * 1000)) := by
  have h1 : ((k : ℚ) / 1000) * 1000000 = ((k * 1000 : Nat) : ℚ) := by
    push_cast
    ring
  simp only [formatF6, h1, Int.floor_natCast, Int.toNat_natCast]
  have h3 : k * 1000 / 1000000 = k / 1000 := by omega
  have h4 : k * 1000 % 1000000 = k % 1000 * 1000 := by omega
  rw [h3, h4]

theorem formatF6_div_1000_int (e : Int) (he : 0 ≤ e) :
    formatF6 ((e : ℚ) / 1000) =
      natStr (e.toNat / 1000) ++ "." ++ String.mk (padDigits 6 (e.toNat % 1000 * 1000)) := by
  have h1 : ((e : ℚ)) = ((e.toNat : ℕ) : ℚ) := by
    exact_mod_cast (Int.toNat_of_nonneg he).symm
  rw [h1, formatF6_div_1000]

/-- Characterization of the shared Wrapped timedelta printer: sign prepended
iff negative, then the unsigned magnitude decomposed into days, hours,
minutes and seconds (the latter with exactly six decimals). -/
theorem srvTdStr_eq (ms : Int) :
    srvTdStr ms =
      (if ms < 0 then "-" else "") ++ "P" ++ natStr (ms.natAbs / 86400000) ++ "DT"
        ++ natStr (ms.natAbs / 3600000 % 24) ++ "H" ++ natStr (ms.natAbs / 60000 % 60) ++ "M"
        ++ natStr (ms.natAbs / 1000 % 60) ++ "."
        ++ String.mk (padDigits 6 (ms.natAbs % 1000 * 1000)) ++ "S" := by
  have h1000 : (0 : ℚ) < 1000 := by norm_num
  have hlt : ((ms : ℚ) / 1000 < 0) ↔ ms < 0 := by
    rw [div_lt_iff₀ h1000]
    norm_num
  have hsgnStr : (if (ms : ℚ) / 1000 < 0 then "-" else "") = (if ms < 0 then "-" else "") := by
    by_cases h : ms < 0
    · rw [if_pos (hlt.mpr h), if_pos h]
    · rw [if_neg (fun hc => h (hlt.mp hc)), if_neg h]
  have hdq :
      (if (ms : ℚ) / 1000 < 0 then -((ms : ℚ) / 1000) else (ms : ℚ) / 1000)
        = ((ms.natAbs : ℤ) : ℚ) / 1000 := by
    by_cases h : ms < 0
    · rw [if_pos (hlt.mpr h)]
      have hna : ((ms.natAbs : ℤ)) = -ms := by omega
      rw [hna]
      push_cast
      ring
    · rw [if_neg (fun hc => h (hlt.mp hc))]
      have hna : ((ms.natAbs : ℤ)) = ms := by omega
      rw [hna]
  have hA0 : (0 : ℤ) ≤ (ms.natAbs : ℤ) := by positivity
  have hd1 : pyTrunc (((ms.natAbs : ℤ) : ℚ) / 1000 / 60) = (ms.natAbs : ℤ) / 60000 := by
    have he : (((ms.natAbs : ℤ) : ℚ)) / 1000 / 60 = ((ms.natAbs : ℤ) : ℚ) / ((60000 : ℕ) : ℚ) := by
      push_cast
      ring
    rw [he, pyTrunc_div_natCast _ _ hA0]
    norm_num
  have hd1n : (0 : ℤ) ≤ (ms.natAbs : ℤ) / 60000 := by omega
  have hd2 : pyTrunc ((((ms.natAbs : ℤ) / 60000 : ℤ) : ℚ) / 60)
      = (ms.natAbs : ℤ) / 60000 / 60 := by
    have he : ((((ms.natAbs : ℤ) / 60000 : ℤ) : ℚ)) / 60
        = (((ms.natAbs : ℤ) / 60000 : ℤ) : ℚ) / ((60 : ℕ) : ℚ) := by
      norm_num
    rw [he, pyTrunc_div_natCast _ _ hd1n]
    norm_num
  have hd2n : (0 : ℤ) ≤ (ms.natAbs : ℤ) / 60000 / 60 := by omega
  have hd3 : pyTrunc ((((ms.natAbs : ℤ) / 60000 / 60 : ℤ) : ℚ) / 24)
      = (ms.natAbs : ℤ) / 60000 / 60 / 24 := by
    have he : ((((ms.natAbs : ℤ) / 60000 / 60 : ℤ) : ℚ)) / 24
        = (((ms.natAbs : ℤ) / 60000 / 60 : ℤ) : ℚ) / ((24 : ℕ) : ℚ) := by
      norm_num
    rw [he, pyTrunc_div_natCast _ _ hd2n]
    norm_num
  have hfm := pyFmod_div_sixty (ms.natAbs : ℤ)
  have hemodn : (0 : ℤ) ≤ (ms.natAbs : ℤ) % 60000 := by omega
  have hf6 := formatF6_div_1000_int ((ms.natAbs : ℤ) % 60000) hemodn
  simp only [srvTdStr]
  rw [hsgnStr, hdq, hd1, hfm, hf6, hd2, hd3]
  have e1 : (ms.natAbs : ℤ) / 60000 / 60 / 24 = ((ms.natAbs / 86400000 : ℕ) : ℤ) := by omega
  have e2 : (ms.natAbs : ℤ) / 60000 / 60 % 24 = ((ms.natAbs / 3600000 % 24 : ℕ) : ℤ) := by omega
  have e3 : (ms.natAbs : ℤ) / 60000 % 60 = ((ms.natAbs / 60000 % 60 : ℕ) : ℤ) := by omega
  have e4 : ((ms.natAbs : ℤ) % 60000).toNat = ms.natAbs % 60000 := by omega
  have e5 : ms.natAbs % 60000 / 1000 = ms.natAbs / 1000 % 60 := by omega
  have e6 : ms.natAbs % 60000 % 1000 = ms.natAbs % 1000 := by omega
  rw [e1, e2, e3, e4, e5, e6, intStr_natCast, intStr_natCast, intStr_natCast]
  simp [String.append_assoc]

theorem head?_append_of_ne_nil {a : List Char} (b : List Char) (h : a ≠ []) :
    (a ++ b).head? = a.head? := by
  cases a with
  | nil => exact absurd rfl h
  | cons c r => rfl

theorem natDigits_pos_length (n : Nat) : 0 < (natDigits n).length := by
  cases hnd : natDigits n with
  | nil => exact absurd hnd (natDigits_ne_nil n)
  | cons c r => simp

theorem not_mem_digits (x : Char) {l : List Char} (hl : ∀ c ∈ l, c.isDigit = true)
    (hx : x.toNat < 48 ∨ 57 < x.toNat) : x ∉ l :=
  fun hm => (digit_ne (hl x hm) hx) rfl

theorem not_mem_append_chars {x : Char} {a b : List Char} (ha : x ∉ a) (hb : x ∉ b) :
    x ∉ a ++ b := by
  intro hm
  exact (List.mem_append.mp hm).elim ha hb

theorem not_mem_cons_chars {x c : Char} {b : List Char} (hxc : x ≠ c) (hb : x ∉ b) :
    x ∉ c :: b := by
  intro hm
  rcases List.mem_cons.mp hm with e | hm2
  · exact hxc e
  · exact hb hm2

/-- Core lemma for the DTDURATION branch of the flask `convertIn` on a
canonical literal `[-]P{A}DT{B}H{C}M{S2}.{F}S` built from digit runs, with
the sign already resolved so the signed and unsigned cases share one
proof.  The fractional field is a six-digit run `padDigits 6 f`. -/
theorem dtDurParse_core (l : List Char) (sign : Bool) (A B C S2 : List Char) (f : Nat)
    (hf : f < 1000000)
    (hA0 : A ≠ []) (hA : ∀ c ∈ A, c.isDigit = true)
    (hB0 : B ≠ []) (hB : ∀ c ∈ B, c.isDigit = true)
    (hC0 : C ≠ []) (hC : ∀ c ∈ C, c.isDigit = true)
    (hS0 : S2 ≠ []) (hS : ∀ c ∈ S2, c.isDigit = true)
    (hsp : (if l.head? = some '-' then ((true : Bool), l.drop 1) else ((false : Bool), l))
      = (sign, 'P' :: (A ++ ('D' :: ('T' :: (B ++ ('H' :: (C ++ ('M' :: (S2
          ++ ('.' :: (padDigits 6 f ++ ['S'])))))))))))) :
    dtDurParse l = .ok (.timedelta (if sign
      then -(((digitsVal A : ℤ) * 86400 + ((digitsVal B : ℤ) * 60 * 60
          + (digitsVal C : ℤ) * 60 + (digitsVal S2 : ℤ))) * 1000 + ((f / 1000 : ℕ) : ℤ))
      else ((digitsVal A : ℤ) * 86400 + ((digitsVal B : ℤ) * 60 * 60
          + (digitsVal C : ℤ) * 60 + (digitsVal S2 : ℤ))) * 1000 + ((f / 1000 : ℕ) : ℤ))) := by
  have hfd := padDigits_all_digit 6 f
  have hnmD : 'D' ∉ ('T' :: (B ++ ('H' :: (C ++ ('M' :: (S2
      ++ ('.' :: (padDigits 6 f ++ ['S']))))))) : List Char) := by
    refine not_mem_cons_chars (by decide) ?_
    refine not_mem_append_chars (not_mem_digits 'D' hB (by decide)) ?_
    refine not_mem_cons_chars (by decide) ?_
    refine not_mem_append_chars (not_mem_digits 'D' hC (by decide)) ?_
    refine not_mem_cons_chars (by decide) ?_
    refine not_mem_append_chars (not_mem_digits 'D' hS (by decide)) ?_
    refine not_mem_cons_chars (by decide) ?_
    refine not_mem_append_chars (not_mem_digits 'D' hfd (by decide)) ?_
    decide
  have hsplitD : pySplit 'D' (A ++ ('D' :: ('T' :: (B ++ ('H' :: (C ++ ('M' :: (S2
      ++ ('.' :: (padDigits 6 f ++ ['S']))))))))))
      = [A, 'T' :: (B ++ ('H' :: (C ++ ('M' :: (S2 ++ ('.' :: (padDigits 6 f ++ ['S'])))))))] := by
    rw [pySplit_append 'D' A _ (not_mem_digits 'D' hA (by decide)),
      pySplit_not_mem 'D' _ hnmD]
  have hnmH : 'H' ∉ (C ++ ('M' :: (S2 ++ ('.' :: (padDigits 6 f ++ ['S'])))) : List Char) := by
    refine not_mem_append_chars (not_mem_digits 'H' hC (by decide)) ?_
    refine not_mem_cons_chars (by decide) ?_
    refine not_mem_append_chars (not_mem_digits 'H' hS (by decide)) ?_
    refine not_mem_cons_chars (by decide) ?_
    refine not_mem_append_chars (not_mem_digits 'H' hfd (by decide)) ?_
    decide
  have hsplitH : pySplit 'H' (B ++ ('H' :: (C ++ ('M' :: (S2 ++ ('.' :: (padDigits 6 f ++ ['S'])))))))
      = [B, C ++ ('M' :: (S2 ++ ('.' :: (padDigits 6 f ++ ['S']))))] := by
    rw [pySplit_append 'H' B _ (not_mem_digits 'H' hB (by decide)),
      pySplit_not_mem 'H' _ hnmH]
  have hnmM : 'M' ∉ (S2 ++ ('.' :: (padDigits 6 f ++ ['S'])) : List Char) := by
    refine not_mem_append_chars (not_mem_digits 'M' hS (by decide)) ?_
    refine not_mem_cons_chars (by decide) ?_
    refine not_mem_append_chars (not_mem_digits 'M' hfd (by decide)) ?_
    decide
  have hsplitM : pySplit 'M' (C ++ ('M' :: (S2 ++ ('.' :: (padDigits 6 f ++ ['S'])))))
      = [C, S2 ++ ('.' :: (padDigits 6 f ++ ['S']))] := by
    rw [pySplit_append 'M' C _ (not_mem_digits 'M' hC (by decide)),
      pySplit_not_mem 'M' _ hnmM]
  have hassocS : (S2 ++ ('.' :: (padDigits 6 f ++ ['S'])) : List Char)
      = (S2 ++ ('.' :: padDigits 6 f)) ++ ('S' :: []) := by
    simp [List.append_assoc]
  have hnmS : 'S' ∉ (S2 ++ ('.' :: padDigits 6 f) : List Char) := by
    refine not_mem_append_chars (not_mem_digits 'S' hS (by decide)) ?_
    refine not_mem_cons_chars (by decide) ?_
    exact not_mem_digits 'S' hfd (by decide)
  have hsplitS : pySplit 'S' (S2 ++ ('.' :: (padDigits 6 f ++ ['S'])))
      = [S2 ++ ('.' :: padDigits 6 f), []] := by
    rw [hassocS, pySplit_append 'S' _ _ hnmS, pySplit_not_mem 'S' [] (by decide)]
  have hFlen : (padDigits 6 f).length = 6 := padDigits_length 6 f hf (by omega)
  have hfloat : pyFloat (S2 ++ ('.' :: padDigits 6 f))
      = .ok ((digitsVal S2 : ℚ) + (f : ℚ) / (10 : ℚ) ^ (6 : ℕ)) := by
    rw [pyFloat_point hS0 hS hfd, padDigits_val, hFlen]
  have hfrac0 : (0 : ℚ) ≤ (f : ℚ) / (10 : ℚ) ^ (6 : ℕ) := by positivity
  have hfrac1 : (f : ℚ) / (10 : ℚ) ^ (6 : ℕ) < 1 := by
    rw [div_lt_one (by positivity)]
    exact_mod_cast hf
  have htrunc1 : pyTrunc ((digitsVal S2 : ℚ) + (f : ℚ) / (10 : ℚ) ^ (6 : ℕ))
      = (digitsVal S2 : ℤ) :=
    pyTrunc_nat_add_frac (digitsVal S2) hfrac0 hfrac1
  have hms : ((digitsVal S2 : ℚ) + (f : ℚ) / (10 : ℚ) ^ (6 : ℕ)) * 1000
      = ((digitsVal S2 * 1000 + f / 1000 : ℕ) : ℚ) + ((f % 1000 : ℕ) : ℚ) / 1000 := by
    have hfsplit : f = 1000 * (f / 1000) + f % 1000 := by omega
    rw [show ((f : ℚ)) = 1000 * ((f / 1000 : ℕ) : ℚ) + ((f % 1000 : ℕ) : ℚ) by
      exact_mod_cast congrArg (fun n : ℕ => (n : ℚ)) hfsplit]
    push_cast
    ring
  have hfrac0b : (0 : ℚ) ≤ ((f % 1000 : ℕ) : ℚ) / 1000 := by positivity
  have hfrac1b : ((f % 1000 : ℕ) : ℚ) / 1000 < 1 := by
    rw [div_lt_one (by norm_num)]
    exact_mod_cast Nat.mod_lt f (by norm_num)
  have htrunc2 : pyTrunc (((digitsVal S2 : ℚ) + (f : ℚ) / (10 : ℚ) ^ (6 : ℕ)) * 1000)
      = ((digitsVal S2 * 1000 + f / 1000 : ℕ) : ℤ) := by
    rw [hms]
    exact pyTrunc_nat_add_frac (digitsVal S2 * 1000 + f / 1000) hfrac0b hfrac1b
  obtain ⟨c0, r0, hcr⟩ : ∃ c0 r0, A = c0 :: r0 := by
    cases hnd : A with
    | nil => exact absurd hnd hA0
    | cons c r => exact ⟨c, r, rfl⟩
  have hc0d : c0.isDigit = true := hA c0 (hcr ▸ List.mem_cons_self c0 r0)
  have hc0T : ¬c0 = 'T' := digit_ne hc0d (by decide)
  have hheadl2 : (A ++ ('D' :: ('T' :: (B ++ ('H' :: (C ++ ('M' :: (S2
      ++ ('.' :: (padDigits 6 f ++ ['S']))))))))) : List Char).head? = some c0 := by
    rw [head?_append_of_ne_nil _ hA0, hcr]
    rfl
  have hApos : 0 < A.length := by
    rw [hcr]
    simp
  have hSpos : 0 < (S2 ++ ('.' :: padDigits 6 f)).length := by
    simp
  have hBpos : 0 < B.length := List.length_pos.mpr hB0
  have hCpos : 0 < C.length := List.length_pos.mpr hC0
  have hmod : ((digitsVal S2 * 1000 + f / 1000 : ℕ) : ℤ) % 1000 = ((f / 1000 : ℕ) : ℤ) := by
    omega
  simp only [dtDurParse, hsp]
  rw [List.drop_one]
  simp only [List.tail_cons, hheadl2]
  simp only [hsplitD, List.headD, List.get?, exbind_ok, exbind_error, expure_bind]
  rw [if_pos hc0T]
  simp only [if_pos hApos, pyInt_digits hA0 hA, exbind_ok, expure_bind]
  simp only [List.drop_one, List.tail_cons, List.length_cons, List.length_nil,
    Nat.zero_lt_succ, gt_iff_lt, if_true, hsplitH, hsplitM, hsplitS, List.headD, List.get?,
    List.getD, Option.getD_some, hfloat, pyInt_digits hB0 hB, pyInt_digits hC0 hC,
    exbind_ok, expure_bind, htrunc1, htrunc2, hBpos, hCpos, hSpos, hmod]
  rfl

/-- Core lemma for the DTDURATION branch on a canonical literal with whole
seconds, `[-]P{A}DT{B}H{C}M{S2}S`. -/
theorem dtDurParse_coreInt (l : List Char) (sign : Bool) (A B C S2 : List Char)
    (hA0 : A ≠ []) (hA : ∀ c ∈ A, c.isDigit = true)
    (hB0 : B ≠ []) (hB : ∀ c ∈ B, c.isDigit = true)
    (hC0 : C ≠ []) (hC : ∀ c ∈ C, c.isDigit = true)
    (hS0 : S2 ≠ []) (hS : ∀ c ∈ S2, c.isDigit = true)
    (hsp : (if l.head? = some '-' then ((true : Bool), l.drop 1) else ((false : Bool), l))
      = (sign, 'P' :: (A ++ ('D' :: ('T' :: (B ++ ('H' :: (C ++ ('M' :: (S2
          ++ ['S']))))))))))  :
    dtDurParse l = .ok (.timedelta (if sign
      then -(((digitsVal A : ℤ) * 86400 + ((digitsVal B : ℤ) * 60 * 60
          + (digitsVal C : ℤ) * 60 + (digitsVal S2 : ℤ))) * 1000)
      else ((digitsVal A : ℤ) * 86400 + ((digitsVal B : ℤ) * 60 * 60
          + (digitsVal C : ℤ) * 60 + (digitsVal S2 : ℤ))) * 1000)) := by
  have hnmD : 'D' ∉ ('T' :: (B ++ ('H' :: (C ++ ('M' :: (S2 ++ ['S']))))) : List Char) := by
    refine not_mem_cons_chars (by decide) ?_
    refine not_mem_append_chars (not_mem_digits 'D' hB (by decide)) ?_
    refine not_mem_cons_chars (by decide) ?_
    refine not_mem_append_chars (not_mem_digits 'D' hC (by decide)) ?_
    refine not_mem_cons_chars (by decide) ?_
    refine not_mem_append_chars (not_mem_digits 'D' hS (by decide)) ?_
    decide
  have hsplitD : pySplit 'D' (A ++ ('D' :: ('T' :: (B ++ ('H' :: (C ++ ('M' :: (S2 ++ ['S']))))))))
      = [A, 'T' :: (B ++ ('H' :: (C ++ ('M' :: (S2 ++ ['S'])))))] := by
    rw [pySplit_append 'D' A _ (not_mem_digits 'D' hA (by decide)),
      pySplit_not_mem 'D' _ hnmD]
  have hnmH : 'H' ∉ (C ++ ('M' :: (S2 ++ ['S'])) : List Char) := by
    refine not_mem_append_chars (not_mem_digits 'H' hC (by decide)) ?_
    refine not_mem_cons_chars (by decide) ?_
    refine not_mem_append_chars (not_mem_digits 'H' hS (by decide)) ?_
    decide
  have hsplitH : pySplit 'H' (B ++ ('H' :: (C ++ ('M' :: (S2 ++ ['S'])))))
      = [B, C ++ ('M' :: (S2 ++ ['S']))] := by
    rw [pySplit_append 'H' B _ (not_mem_digits 'H' hB (by decide)),
      pySplit_not_mem 'H' _ hnmH]
  have hnmM : 'M' ∉ (S2 ++ ['S'] : List Char) := by
    refine not_mem_append_chars (not_mem_digits 'M' hS (by decide)) ?_
    decide
  have hsplitM : pySplit 'M' (C ++ ('M' :: (S2 ++ ['S'])))
      = [C, S2 ++ ['S']] := by
    rw [pySplit_append 'M' C _ (not_mem_digits 'M' hC (by decide)),
      pySplit_not_mem 'M' _ hnmM]
  have hassocS : (S2 ++ ['S'] : List Char) = S2 ++ ('S' :: []) := rfl
  have hsplitS : pySplit 'S' (S2 ++ ['S']) = [S2, []] := by
    rw [hassocS, pySplit_append 'S' _ _ (not_mem_digits 'S' hS (by decide)),
      pySplit_not_mem 'S' [] (by decide)]
  have hfloat : pyFloat S2 = .ok ((digitsVal S2 : ℚ)) := pyFloat_digits hS0 hS
  have htrunc1 : pyTrunc ((digitsVal S2 : ℚ)) = (digitsVal S2 : ℤ) :=
    pyTrunc_natCast (digitsVal S2)
  have htrunc2 : pyTrunc (((digitsVal S2 : ℚ)) * 1000) = ((digitsVal S2 * 1000 : ℕ) : ℤ) := by
    rw [show ((digitsVal S2 : ℚ)) * 1000 = ((digitsVal S2 * 1000 : ℕ) : ℚ) by push_cast; ring]
    exact pyTrunc_natCast (digitsVal S2 * 1000)
  obtain ⟨c0, r0, hcr⟩ : ∃ c0 r0, A = c0 :: r0 := by
    cases hnd : A with
    | nil => exact absurd hnd hA0
    | cons c r => exact ⟨c, r, rfl⟩
  have hc0d : c0.isDigit = true := hA c0 (hcr ▸ List.mem_cons_self c0 r0)
  have hc0T : ¬c0 = 'T' := digit_ne hc0d (by decide)
  have hheadl2 : (A ++ ('D' :: ('T' :: (B ++ ('H' :: (C ++ ('M' :: (S2 ++ ['S'])))))))
      : List Char).head? = some c0 := by
    rw [head?_append_of_ne_nil _ hA0, hcr]
    rfl
  have hApos : 0 < A.length := by
    rw [hcr]
    simp
  have hSpos : 0 < S2.length := List.length_pos.mpr hS0
  have hBpos : 0 < B.length := List.length_pos.mpr hB0
  have hCpos : 0 < C.length := List.length_pos.mpr hC0
  have hmod : ((digitsVal S2 * 1000 : ℕ) : ℤ) % 1000 = 0 := by omega
  simp only [dtDurParse, hsp]
  rw [List.drop_one]
  simp only [List.tail_cons, hheadl2]
  simp only [hsplitD, List.headD, List.get?, exbind_ok, exbind_error, expure_bind]
  rw [if_pos hc0T]
  simp only [if_pos hApos, pyInt_digits hA0 hA, exbind_ok, expure_bind]
  simp only [List.drop_one, List.tail_cons, List.length_cons, List.length_nil,
    Nat.zero_lt_succ, gt_iff_lt, if_true, hsplitH, hsplitM, hsplitS, List.headD, List.get?,
    List.getD, Option.getD_some, hfloat, pyInt_digits hB0 hB, pyInt_digits hC0 hC,
    exbind_ok, expure_bind, htrunc1, htrunc2, hBpos, hCpos, hSpos, hmod]
  rw [show ((digitsVal A : ℤ) * 86400 + ((digitsVal B : ℤ) * 60 * 60 + (digitsVal C : ℤ) * 60
      + (digitsVal S2 : ℤ))) * 1000 + 0
    = ((digitsVal A : ℤ) * 86400 + ((digitsVal B : ℤ) * 60 * 60 + (digitsVal C : ℤ) * 60
      + (digitsVal S2 : ℤ))) * 1000 from by ring]
  rfl

/-- The flask YMDURATION branch on a canonical non-negative literal
`P{y}Y{m}M` parses to `12 * y + m` months. -/
theorem ymDurParse_canon (y m : Nat) :
    ymDurParse (ymCanon y m) = .ok (.int (12 * y + m)) := by
  have hyd := natDigits_all_digit y
  have hmd := natDigits_all_digit m
  have hnmY : 'Y' ∉ (natDigits m ++ ['M'] : List Char) := by
    refine not_mem_append_chars (not_mem_digits 'Y' hmd (by decide)) ?_
    decide
  have hsplitY : pySplit 'Y' (natDigits y ++ ('Y' :: (natDigits m ++ ['M'])))
      = [natDigits y, natDigits m ++ ['M']] := by
    rw [pySplit_append 'Y' _ _ (not_mem_digits 'Y' hyd (by decide)),
      pySplit_not_mem 'Y' _ hnmY]
  have hsplitM : pySplit 'M' (natDigits m ++ ['M']) = [natDigits m, []] := by
    rw [show (natDigits m ++ ['M'] : List Char) = natDigits m ++ ('M' :: []) from rfl,
      pySplit_append 'M' _ _ (not_mem_digits 'M' hmd (by decide)),
      pySplit_not_mem 'M' [] (by decide)]
  have hne : ¬(ymCanon y m = ['-']) := by
    intro e
    rw [ymCanon] at e
    injection e with e1 e2
    exact absurd e1 (by decide)
  have hmpos : 0 < (natDigits m).length := natDigits_pos_length m
  simp only [ymDurParse, if_neg hne]
  simp only [ymCanon, List.drop_one, List.tail_cons, hsplitY, List.headD,
    pyInt_digits (natDigits_ne_nil y) hyd, digitsVal_natDigits, exbind_ok, expure_bind,
    List.get?, hsplitM, List.length_cons, gt_iff_lt, hmpos, if_true,
    pyInt_digits (natDigits_ne_nil m) hmd]
  rw [show ((y : ℤ)) * 12 + (m : ℤ) = ((12 * y + m : ℕ) : ℤ) by push_cast; ring]
  rfl

/-- Characterization of the shared Wrapped year-month printer: sign
prepended iff negative, then `P{total/12}Y{total%12}M` of the unsigned
total. -/
theorem srvYmStr_eq (n : Int) :
    srvYmStr n = (if n < 0 then "-" else "") ++ "P" ++ natStr (n.natAbs / 12) ++ "Y"
      ++ natStr (n.natAbs % 12) ++ "M" := by
  have hA0 : (0 : ℤ) ≤ (n.natAbs : ℤ) := by positivity
  have ha : (if n < 0 then -n else n) = (n.natAbs : ℤ) := by
    by_cases hn : n < 0
    · rw [if_pos hn]
      omega
    · rw [if_neg hn]
      omega
  have hyears : pyTrunc (((n.natAbs : ℤ) : ℚ) / 12) = (n.natAbs : ℤ) / 12 := by
    have he : (((n.natAbs : ℤ) : ℚ)) / 12 = ((n.natAbs : ℤ) : ℚ) / ((12 : ℕ) : ℚ) := by
      norm_num
    rw [he, pyTrunc_div_natCast _ _ hA0]
    norm_num
  have e1 : (n.natAbs : ℤ) / 12 = ((n.natAbs / 12 : ℕ) : ℤ) := by omega
  have e2 : (n.natAbs : ℤ) % 12 = ((n.natAbs % 12 : ℕ) : ℤ) := by omega
  simp only [srvYmStr, ha, hyears, e1, e2, intStr_natCast]

/-- The flask DTDURATION branch on the canonical fractional literal
`dtCanon`. -/
theorem dtDurParse_canon (neg : Bool) (d h m s f : Nat) (hf : f < 1000000) :
    dtDurParse (dtCanon neg d h m s f) = .ok (.timedelta (if neg
      then -(((d : ℤ) * 86400 + ((h : ℤ) * 60 * 60 + (m : ℤ) * 60 + (s : ℤ))) * 1000
          + ((f / 1000 : ℕ) : ℤ))
      else ((d : ℤ) * 86400 + ((h : ℤ) * 60 * 60 + (m : ℤ) * 60 + (s : ℤ))) * 1000
          + ((f / 1000 : ℕ) : ℤ))) := by
  have core := dtDurParse_core (dtCanon neg d h m s f) neg (natDigits d) (natDigits h)
    (natDigits m) (natDigits s) f hf
    (natDigits_ne_nil d) (natDigits_all_digit d)
    (natDigits_ne_nil h) (natDigits_all_digit h)
    (natDigits_ne_nil m) (natDigits_all_digit m)
    (natDigits_ne_nil s) (natDigits_all_digit s)
  rw [digitsVal_natDigits, digitsVal_natDigits, digitsVal_natDigits, digitsVal_natDigits]
    at core
  apply core
  cases neg
  · rfl
  · rfl

/-- The flask DTDURATION branch on the canonical whole-seconds literal
`dtCanonInt`. -/
theorem dtDurParse_canonInt (neg : Bool) (d h m s : Nat) :
    dtDurParse (dtCanonInt neg d h m s) = .ok (.timedelta (if neg
      then -(((d : ℤ) * 86400 + ((h : ℤ) * 60 * 60 + (m : ℤ) * 60 + (s : ℤ))) * 1000)
      else ((d : ℤ) * 86400 + ((h : ℤ) * 60 * 60 + (m : ℤ) * 60 + (s : ℤ))) * 1000)) := by
  have core := dtDurParse_coreInt (dtCanonInt neg d h m s) neg (natDigits d) (natDigits h)
    (natDigits m) (natDigits s)
    (natDigits_ne_nil d) (natDigits_all_digit d)
    (natDigits_ne_nil h) (natDigits_all_digit h)
    (natDigits_ne_nil m) (natDigits_all_digit m)
    (natDigits_ne_nil s) (natDigits_all_digit s)
  rw [digitsVal_natDigits, digitsVal_natDigits, digitsVal_natDigits, digitsVal_natDigits]
    at core
  apply core
  cases neg
  · rfl
  · rfl

/-- The characters of the Wrapped timedelta printer's output form exactly
the canonical day-time duration literal `dtCanon`. -/
theorem srvTdStr_data (ms : Int) :
    (srvTdStr ms).data = dtCanon (decide (ms < 0)) (ms.natAbs / 86400000)
      (ms.natAbs / 3600000 % 24) (ms.natAbs / 60000 % 60) (ms.natAbs / 1000 % 60)
      (ms.natAbs % 1000 * 1000) := by
  have hmk : ∀ l : List Char, (String.mk l).data = l := fun l => rfl
  have hP : ("P" : String).data = ['P'] := rfl
  have hDT : ("DT" : String).data = ['D', 'T'] := rfl
  have hH : ("H" : String).data = ['H'] := rfl
  have hM : ("M" : String).data = ['M'] := rfl
  have hdot : ("." : String).data = ['.'] := rfl
  have hS : ("S" : String).data = ['S'] := rfl
  have hneg : ("-" : String).data = ['-'] := rfl
  have hemp : ("" : String).data = [] := rfl
  rw [srvTdStr_eq]
  by_cases hms : ms < 0
  · rw [if_pos hms, dtCanon, decide_eq_true hms, if_pos rfl]
    simp only [String.data_append, hmk, hP, hDT, hH, hM, hdot, hS, hneg, natStr,
      List.append_assoc, List.cons_append, List.singleton_append, List.nil_append]
  · rw [if_neg hms, dtCanon, decide_eq_false hms]
    simp only [Bool.false_eq_true, if_false, String.data_append, hmk, hP, hDT, hH, hM, hdot,
      hS, hemp, natStr, List.append_assoc, List.cons_append, List.singleton_append,
      List.nil_append]

/-- Reducing the string case of the flask `convertIn` to the DTDURATION
branch when the classifier reports one day-time-duration token. -/
theorem convertInFlaskStr_dt (cl : String → Classified) (gettz : String → Option Int)
    (s : String) (h0 : ¬s = "") (hcl : cl s = .one .DTDURATION) :
    convertInFlaskStr cl gettz s = dtDurParse s.data := by
  simp only [convertInFlaskStr, if_neg h0, hcl]

/-- Round trip at millisecond precision: re-decoding the inner text printed
by the Wrapped timedelta printer recovers exactly the original millisecond
total, for any classifier that classifies that text as a
day-time-duration token. -/
theorem flask_parse_srvTdStr (ms : Int) (cl : String → Classified) (gettz : String → Option Int)
    (hcl : cl (srvTdStr ms) = .one .DTDURATION) :
    convertInFlaskStr cl gettz (srvTdStr ms) = .ok (.timedelta ms) := by
  have hdata := srvTdStr_data ms
  have hne : ¬srvTdStr ms = "" := by
    intro e
    have hd : (srvTdStr ms).data = [] := by rw [e]
    rw [hdata] at hd
    rw [dtCanon] at hd
    rcases List.append_eq_nil.mp hd with ⟨_, h2⟩
    exact List.cons_ne_nil _ _ h2
  rw [convertInFlaskStr_dt cl gettz _ hne hcl, hdata]
  have hflt : ms.natAbs % 1000 * 1000 < 1000000 := by omega
  by_cases hms : ms < 0
  · rw [decide_eq_true hms, dtDurParse_canon true _ _ _ _ _ hflt, if_pos rfl]
    exact congrArg (fun z : Int => (Except.ok (PyVal.timedelta z) : Except PyErr PyVal))
      (by omega)
  · rw [decide_eq_false hms, dtDurParse_canon false _ _ _ _ _ hflt]
    simp only [Bool.false_eq_true, if_false]
    exact congrArg (fun z : Int => (Except.ok (PyVal.timedelta z) : Except PyErr PyVal))
      (by omega)

/-- The flask timedelta printer on the −90-second duration: the signed
total is decomposed directly, so the output carries no sign and shows
59 minutes 30 seconds. -/
theorem flaskTdStr_neg90 : flaskTdStr (-90000) = "P0DT0H59M30S" := by
  have h1 : (((-90000 : ℤ) : ℚ)) / 1000 = -90 := by norm_num
  have h2 : pyFmod (-90 : ℚ) 60 = 30 := by
    unfold pyFmod
    have : ((-90 : ℚ)) / 60 = -(3 / 2) := by norm_num
    rw [this]
    norm_num
  have h3 : pyTrunc ((-90 : ℚ) / 60) = -1 := by
    unfold pyTrunc
    rw [if_neg (by norm_num)]
    have : ((-90 : ℚ)) / 60 = -(3 / 2) := by norm_num
    rw [this, Int.ceil_neg]
    norm_num
  have h4 : pyTrunc (((-1 : ℤ) : ℚ) / 60) = 0 := by
    unfold pyTrunc
    rw [if_neg (by norm_num)]
    have : (((-1 : ℤ) : ℚ)) / 60 = -(1 / 60) := by norm_num
    rw [this, Int.ceil_neg]
    norm_num
  have h5 : pyTrunc (((0 : ℤ) : ℚ) / 24) = 0 := by
    unfold pyTrunc
    rw [if_pos (by norm_num)]
    norm_num
  have h6 : pyTrunc (30 : ℚ) = 30 := by
    unfold pyTrunc
    rw [if_pos (by norm_num)]
    norm_num
  simp only [flaskTdStr, h1, h2, h3, h4, h5, h6]
  decide

/-- The flask timedelta printer on the half-second duration: the `%d`
seconds field truncates the fraction away. -/
theorem flaskTdStr_half : flaskTdStr 500 = "P0DT0H0M0S" := by
  have h1 : (((500 : ℤ) : ℚ)) / 1000 = 1 / 2 := by norm_num
  have h2 : pyFmod (1 / 2 : ℚ) 60 = 1 / 2 := by
    unfold pyFmod
    have : ((1 / 2 : ℚ)) / 60 = 1 / 120 := by norm_num
    rw [this]
    norm_num
  have h3 : pyTrunc ((1 / 2 : ℚ) / 60) = 0 := by
    unfold pyTrunc
    rw [if_pos (by norm_num)]
    have : ((1 / 2 : ℚ)) / 60 = 1 / 120 := by norm_num
    rw [this]
    norm_num
  have h4 : pyTrunc (((0 : ℤ) : ℚ) / 60) = 0 := by
    unfold pyTrunc
    rw [if_pos (by norm_num)]
    norm_num
  have h5 : pyTrunc (((0 : ℤ) : ℚ) / 24) = 0 := by
    unfold pyTrunc
    rw [if_pos (by norm_num)]
    norm_num
  have h6 : pyTrunc (1 / 2 : ℚ) = 0 := by
    unfold pyTrunc
    rw [if_pos (by norm_num)]
    norm_num
  simp only [flaskTdStr, h1, h2, h3, h4, h5, h6]
  decide

/-- Python float `str` on a natural number value prints the integer part
with a trailing `.0`. -/
theorem floatRepr_nat (n : ℕ) : floatRepr (n : ℚ) = natStr n ++ ".0" := by
  have habs : |(n : ℚ)| = (n : ℚ) := abs_of_nonneg (by positivity)
  have hp0 : (((n : ℚ)) * (10 : ℚ) ^ (0 : ℕ)).den = 1 := by
    rw [pow_zero, mul_one, Rat.den_natCast]
  have hnum : (((n : ℚ)) * (10 : ℚ) ^ (0 : ℕ)).num.toNat = n := by
    rw [pow_zero, mul_one, Rat.num_natCast, Int.toNat_natCast]
  have hfind : (List.range 18).find? (fun k => ((n : ℚ) * (10 : ℚ) ^ k).den = 1) = some 0 := by
    rw [show List.range 18 = 0 :: [1, 2, 3, 4, 5, 6, 7, 8, 9, 10, 11, 12, 13, 14, 15, 16, 17]
      from rfl]
    apply List.find?_cons_of_pos
    exact decide_eq_true hp0
  simp only [floatRepr, habs, hfind, decDigitsStr, hnum]
  rw [if_neg (not_lt.mpr (by positivity : (0 : ℚ) ≤ (n : ℚ)))]
  simp

/-- The DTDURATION branch raises when the day component is present but not
numeric: Python's `int(parts[0])` raises a `ValueError` that propagates. -/
theorem dtDurParse_badDay (l l2 : List Char) (c : Char)
    (hl2 : (if l.head? = some '-' then ((true : Bool), l.drop 1)
      else ((false : Bool), l)).2.drop 1 = l2)
    (hhd : l2.head? = some c) (hcT : ¬c = 'T')
    (hdaylen : 0 < ((pySplit 'D' l2).headD []).length)
    (hday : pyInt ((pySplit 'D' l2).headD []) = .error .valueError) :
    dtDurParse l = .error .valueError := by
  simp only [dtDurParse, hl2, hhd]
  rw [if_pos hcT]
  simp only [gt_iff_lt, if_pos hdaylen, hday, exbind_error]

/-- The string case of the flask `convertIn` on an AMBIGUOUS (zero or
several tokens) input: the string is returned quote-wrapped unless it both
begins and ends with a quote character. -/
theorem convertInFlask_ambiguous (cl : String → Classified) (gettz : String → Option Int)
    (s : String) (h0 : ¬s = "") (hcl : cl s = .many) :
    convertInFlask cl gettz (.str s)
      = .ok (.str (if s.data.head? ≠ some '"' ∨ s.data.getLast? ≠ some '"'
          then "\"" ++ s ++ "\"" else s)) := by
  simp only [convertInFlask, convertInFlaskStr, if_neg h0, hcl]
  by_cases hq : s.data.head? ≠ some '"' ∨ s.data.getLast? ≠ some '"'
  · rw [if_pos hq, if_pos hq]
  · rw [if_neg hq, if_neg hq]

/-- The DATETIME branch with an `@`-suffixed zone name: the primary parses
and the value carries exactly what the injected resolver returns for the
zone name — an offset when the name resolves, nothing when it does not. -/
theorem dateTimeParseAt_zone (gettz : String → Option Int) (p z : List Char)
    (y mo d h mi s : Nat) (hp : '@' ∉ p) (hz : '@' ∉ z)
    (hparse : parseDateTimeChars p = some (y, mo, d, h, mi, s)) :
    dateTimeParseAt gettz (p ++ '@' :: z)
      = .ok (.datetime y mo d h mi s (gettz (String.mk z))) := by
  simp only [dateTimeParseAt, pySplit_append '@' p z hp, pySplit_not_mem '@' z hz,
    List.headD, List.get?, hparse, exbind_ok, expure_bind]
  cases hg : gettz (String.mk z) <;> simp [hg] <;> rfl

/-- The TIME branch with an `@`-suffixed zone name, as for DATETIME. -/
theorem timeParseAt_zone (gettz : String → Option Int) (p z : List Char)
    (h mi s : Nat) (hp : '@' ∉ p) (hz : '@' ∉ z)
    (hparse : parseTimeChars p = some (h, mi, s)) :
    timeParseAt gettz (p ++ '@' :: z) = .ok (.time h mi s (gettz (String.mk z))) := by
  simp only [timeParseAt, pySplit_append '@' p z hp, pySplit_not_mem '@' z hz,
    List.headD, List.get?, hparse, exbind_ok, expure_bind]
  cases hg : gettz (String.mk z) <;> simp [hg] <;> rfl

/-- The flask `convertIn` delegates every string to its string case. -/
theorem convertInFlask_str (cl : String → Classified) (gettz : String → Option Int)
    (s : String) :
    convertInFlask cl gettz (.str s) = convertInFlaskStr cl gettz s := by
  simp only [convertInFlask]

/-- The HTTPServer/questioner `convertIn` hands an `@"..."`-shaped string
to `convertAtString`. -/
theorem convertInSrv_atString (sfp : String → Except Unit PyVal) (s : String)
    (hat : isAtString s = true) :
    convertInSrv sfp (.str s) = convertAtString sfp s := by
  simp only [convertInSrv, if_pos hat]

/-- `convertAtString` returns the original wrapped string unchanged when
the external parser rejects the inner text. -/
theorem convertAtString_error (sfp : String → Except Unit PyVal) (s : String) (e : Unit)
    (he : sfp (String.mk ((s.data.drop 2).dropLast)) = .error e) :
    convertAtString sfp s = .str s := by
  simp only [convertAtString, he]

/-- `convertAtString` returns the parsed value when the external parser
accepts the inner text. -/
theorem convertAtString_ok (sfp : String → Except Unit PyVal) (s : String) (v : PyVal)
    (hv : sfp (String.mk ((s.data.drop 2).dropLast)) = .ok v) :
    convertAtString sfp s = v := by
  simp only [convertAtString, hv]

/-! # Claims -/

/-- Claim C1, counterexample: decoding `"P3DT4H5M6S"` yields the 3-day
4-hour 5-minute 6-second duration, but Wrapped-mode encoding does not
reproduce the original literal string: it yields `@"P3DT4H5M6.000000S"`
(the escape wrapper plus a six-decimal seconds field). -/
theorem C1_counterexample :
    convertInFlask classifySpec gettzEmpty (.str "P3DT4H5M6S") = .ok (.timedelta 273906000)
    ∧ convertOutSrv (.timedelta 273906000) ≠ .str "P3DT4H5M6S"
    ∧ convertOutSrv (.timedelta 273906000) = .str "@\"P3DT4H5M6.000000S\"" := by
  have hsrv : srvTdStr 273906000 = "P3DT4H5M6.000000S" := by
    rw [srvTdStr_eq]
    decide
  have hdec : convertInFlask classifySpec gettzEmpty (.str "P3DT4H5M6S")
      = .ok (.timedelta 273906000) := by
    rw [convertInFlask_str,
      convertInFlaskStr_dt classifySpec gettzEmpty _ (by decide) (by decide),
      show "P3DT4H5M6S".data = dtCanonInt false 3 4 5 6 from by decide,
      dtDurParse_canonInt]
    norm_num
  have henc : convertOutSrv (.timedelta 273906000) = .str "@\"P3DT4H5M6.000000S\"" := by
    rw [show convertOutSrv (.timedelta 273906000)
      = .str ("@\"" ++ srvTdStr 273906000 ++ "\"") from rfl, hsrv]
    rfl
  refine ⟨hdec, ?_, henc⟩
  rw [henc]
  intro h
  exact absurd (PyVal.str.inj h) (by decide)

/-- Claim C1, amended: decode-then-Wrapped-encode re-serializes each
literal inside the `@"..."` escape wrapper; canonical date, time,
date-time and non-negative year-month literals reproduce their text inside
the wrapper, while a day-time duration gains a fixed six-decimal seconds
field (`"P3DT4H5M6S"` comes back as `@"P3DT4H5M6.000000S"`), and the
negative year-month literal `"-P1Y6M"` fails to decode at all (the decoder
strips its `-` in place of the `P` and then errors). -/
theorem C1_amended :
    convertInFlask classifySpec gettzEmpty (.str "P3DT4H5M6S") = .ok (.timedelta 273906000)
    ∧ convertOutSrv (.timedelta 273906000) = .str "@\"P3DT4H5M6.000000S\""
    ∧ convertInFlask classifySpec gettzEmpty (.str "P1Y6M") = .ok (.int 18)
    ∧ convertOutSrv (.int 18) = .str "@\"P1Y6M\""
    ∧ convertInFlask classifySpec gettzEmpty (.str "-P1Y6M") = .error .valueError
    ∧ convertInFlask classifySpec gettzEmpty (.str "2020-01-01") = .ok (.date 2020 1 1)
    ∧ convertOutSrv (.date 2020 1 1) = .str "@\"2020-01-01\""
    ∧ convertInFlask classifySpec gettzEmpty (.str "10:11:12") = .ok (.time 10 11 12 Option.none)
    ∧ convertOutSrv (.time 10 11 12 Option.none) = .str "@\"10:11:12\""
    ∧ convertInFlask classifySpec gettzEmpty (.str "2020-01-01T10:11:12")
        = .ok (.datetime 2020 1 1 10 11 12 Option.none)
    ∧ convertOutSrv (.datetime 2020 1 1 10 11 12 Option.none)
        = .str "@\"2020-01-01T10:11:12\"" := by
  have hdec : convertInFlask classifySpec gettzEmpty (.str "P3DT4H5M6S")
      = .ok (.timedelta 273906000) := by
    rw [convertInFlask_str,
      convertInFlaskStr_dt classifySpec gettzEmpty _ (by decide) (by decide),
      show "P3DT4H5M6S".data = dtCanonInt false 3 4 5 6 from by decide,
      dtDurParse_canonInt]
    norm_num
  have henc : convertOutSrv (.timedelta 273906000) = .str "@\"P3DT4H5M6.000000S\"" := by
    rw [show convertOutSrv (.timedelta 273906000)
      = .str ("@\"" ++ srvTdStr 273906000 ++ "\"") from rfl,
      show srvTdStr 273906000 = "P3DT4H5M6.000000S" from by rw [srvTdStr_eq]; decide]
    rfl
  have hym : convertOutSrv (.int 18) = .str "@\"P1Y6M\"" := by
    rw [show convertOutSrv (.int 18) = .str ("@\"" ++ srvYmStr 18 ++ "\"") from rfl,
      show srvYmStr 18 = "P1Y6M" from by rw [srvYmStr_eq]; decide]
    rfl
  exact ⟨hdec, henc, by rfl, hym, by rfl, by rfl, by rfl, by rfl, by rfl, by rfl, by rfl⟩

/-- Claim C2, counterexample: on the JSON body `{"x": "PxDT"}` the flask
route's decode loop propagates the decoder's `ValueError` — there is no
surrounding handler turning it into a 400-class response. -/
theorem C2_counterexample :
    decisionServiceData classifyPxDT gettzEmpty [("x", .str "PxDT")]
      = .error .valueError := by
  rfl

/-- Claim C2, amended: a string classified as one day-time-duration token
whose day component is present (the stripped remainder does not start with
`T`) and non-numeric makes the decoder raise `ValueError` — never a
silently returned duration — and, the route's decode loop having no
handler, the exception propagates out of the request layer instead of
becoming a client-visible 400 response. -/
theorem C2_amended (cl : String → Classified) (gettz : String → Option Int)
    (s : String) (l2 : List Char) (c : Char) (k : String)
    (h0 : ¬s = "") (hcl : cl s = .one .DTDURATION)
    (hl2 : (if s.data.head? = some '-' then ((true : Bool), s.data.drop 1)
      else ((false : Bool), s.data)).2.drop 1 = l2)
    (hhd : l2.head? = some c) (hcT : ¬c = 'T')
    (hdaylen : 0 < ((pySplit 'D' l2).headD []).length)
    (hday : pyInt ((pySplit 'D' l2).headD []) = .error .valueError) :
    convertInFlask cl gettz (.str s) = .error .valueError
    ∧ (∀ v : PyVal, convertInFlask cl gettz (.str s) ≠ .ok v)
    ∧ decisionServiceData cl gettz [(k, .str s)] = .error .valueError := by
  have h1 : convertInFlask cl gettz (.str s) = .error .valueError := by
    rw [convertInFlask_str, convertInFlaskStr_dt cl gettz s h0 hcl]
    exact dtDurParse_badDay s.data l2 c hl2 hhd hcT hdaylen hday
  refine ⟨h1, ?_, ?_⟩
  · intro v hv
    rw [h1] at hv
    exact Except.noConfusion hv
  · simp only [decisionServiceData, h1, exbind_error]

/-- Claim C2, witness at the claim's own example: the hypotheses hold for
the string `"PxDT"` under a classifier that reports it as one
day-time-duration token, and the error propagates. -/
theorem C2_witness :
    ¬("PxDT" : String) = "" ∧ classifyPxDT "PxDT" = .one .DTDURATION
    ∧ (convertInFlask classifyPxDT gettzEmpty (.str "PxDT") = .error .valueError
       ∧ (∀ v : PyVal, convertInFlask classifyPxDT gettzEmpty (.str "PxDT") ≠ .ok v)
       ∧ decisionServiceData classifyPxDT gettzEmpty [("x", .str "PxDT")]
           = .error .valueError) :=
  ⟨by decide, by rfl,
    C2_amended classifyPxDT gettzEmpty "PxDT" ['x', 'D', 'T'] 'x' "x"
      (by decide) (by rfl) (by rfl) (by rfl) (by decide) (by decide) (by rfl)⟩

/-- Claim C3, counterexample: the AMBIGUOUS fallback does not return the
text unchanged — `"12 apples"` comes back wrapped in added quote
characters. -/
theorem C3_counterexample :
    convertInFlask classifySpec gettzEmpty (.str "12 apples")
      = .ok (.str "\"12 apples\"")
    ∧ convertInFlask classifySpec gettzEmpty (.str "12 apples")
      ≠ .ok (.str "12 apples") := by
  have h1 : convertInFlask classifySpec gettzEmpty (.str "12 apples")
      = .ok (.str "\"12 apples\"") := by rfl
  refine ⟨h1, ?_⟩
  intro h
  rw [h1] at h
  exact absurd (PyVal.str.inj (Except.ok.inj h)) (by decide)

/-- Claim C3, amended: a nonempty string the classifier reports as
AMBIGUOUS decodes without error to a String, but its text is the input
wrapped in added quote characters unless it already both begins and ends
with `"`, in which case it is returned unchanged. -/
theorem C3_amended (cl : String → Classified) (gettz : String → Option Int)
    (s : String) (h0 : ¬s = "") (hcl : cl s = .many) :
    convertInFlask cl gettz (.str s)
      = .ok (.str (if s.data.head? ≠ some '"' ∨ s.data.getLast? ≠ some '"'
          then "\"" ++ s ++ "\"" else s)) :=
  convertInFlask_ambiguous cl gettz s h0 hcl

/-- Claim C3, witness: the hypotheses hold at the claim's example
`"12 apples"` under the modelled lexer classification. -/
theorem C3_witness :
    ¬("12 apples" : String) = "" ∧ classifySpec "12 apples" = .many
    ∧ convertInFlask classifySpec gettzEmpty (.str "12 apples")
        = .ok (.str (if ("12 apples" : String).data.head? ≠ some '"'
            ∨ ("12 apples" : String).data.getLast? ≠ some '"'
            then "\"" ++ "12 apples" ++ "\"" else "12 apples")) :=
  ⟨by decide, by rfl, C3_amended classifySpec gettzEmpty "12 apples" (by decide) (by rfl)⟩

/-- Claim C4, counterexample: the HTTPServer/questioner `convertIn` leaves
a top-level wire integer unchanged — it is retained as an integer, not
promoted to the float Number variant. -/
theorem C4_counterexample :
    convertInSrv (sFeelParseModel gettzEmpty) (.int 5) = .int 5
    ∧ convertInSrv (sFeelParseModel gettzEmpty) (.int 5) ≠ .num 5 := by
  have h1 : convertInSrv (sFeelParseModel gettzEmpty) (.int 5) = .int 5 := rfl
  refine ⟨h1, ?_⟩
  intro h
  rw [h1] at h
  exact PyVal.noConfusion h

/-- Claim C4, amended: wire integers are promoted to float only where a
promotion branch exists — the flask `convertIn` promotes at top level and
(inside the traversals) per element, and the HTTPServer/questioner variant
promotes dict values and list elements — but the HTTPServer/questioner
variant returns a top-level integer unchanged, and the flask route
observes `None` for a converted container because the container branches
lack a `return`. -/
theorem C4_amended (cl : String → Classified) (gettz : String → Option Int)
    (sfp : String → Except Unit PyVal) (n : Int) :
    convertInFlask cl gettz (.int n) = .ok (.num n)
    ∧ convertInFlaskList cl gettz [.int n] = .ok [.num n]
    ∧ convertInFlaskPairs cl gettz [("x", .int n)] = .ok [("x", .num n)]
    ∧ convertInSrvElem sfp (.int n) = .num n
    ∧ convertInSrvList sfp [.int n] = [.num n]
    ∧ convertInSrv sfp (.dict [("x", .int n)]) = .dict [("x", .num n)]
    ∧ convertInSrv sfp (.int n) = .int n
    ∧ convertInFlask cl gettz (.list [.int n]) = .ok .none
    ∧ convertInFlask cl gettz (.dict [("x", .int n)]) = .ok .none :=
  ⟨rfl, rfl, rfl, rfl, rfl, rfl, rfl, rfl, rfl⟩

/-- Claim C5: the flask decoder maps each of `"true"`, `"True"`, `"TRUE"`
to Boolean true and each of `"none"`, `"None"`, `"null"` to Null, for any
lexer classification of those strings as a BOOLEAN or NAME token — the
keyword table takes priority over the generic-name fallback that would
return a String. -/
theorem C5_keywords (cl : String → Classified) (gettz : String → Option Int)
    (h1 : cl "true" = .one .BOOLEAN ∨ cl "true" = .one .NAME)
    (h2 : cl "True" = .one .NAME) (h3 : cl "TRUE" = .one .NAME)
    (h4 : cl "none" = .one .NAME) (h5 : cl "None" = .one .NAME)
    (h6 : cl "null" = .one .BOOLEAN ∨ cl "null" = .one .NAME) :
    convertInFlask cl gettz (.str "true") = .ok (.bool true)
    ∧ convertInFlask cl gettz (.str "True") = .ok (.bool true)
    ∧ convertInFlask cl gettz (.str "TRUE") = .ok (.bool true)
    ∧ convertInFlask cl gettz (.str "none") = .ok .none
    ∧ convertInFlask cl gettz (.str "None") = .ok .none
    ∧ convertInFlask cl gettz (.str "null") = .ok .none := by
  refine ⟨?_, ?_, ?_, ?_, ?_, ?_⟩
  · rcases h1 with h | h <;>
      · rw [convertInFlask_str]
        unfold convertInFlaskStr
        rw [if_neg (by decide), h]
        rfl
  · rw [convertInFlask_str]
    unfold convertInFlaskStr
    rw [if_neg (by decide), h2]
    rfl
  · rw [convertInFlask_str]
    unfold convertInFlaskStr
    rw [if_neg (by decide), h3]
    rfl
  · rw [convertInFlask_str]
    unfold convertInFlaskStr
    rw [if_neg (by decide), h4]
    rfl
  · rw [convertInFlask_str]
    unfold convertInFlaskStr
    rw [if_neg (by decide), h5]
    rfl
  · rcases h6 with h | h <;>
      · rw [convertInFlask_str]
        unfold convertInFlaskStr
        rw [if_neg (by decide), h]
        rfl

/-- Claim C5, witness: the modelled lexer classifies `"true"` as a BOOLEAN
token and the other five keywords as NAME tokens, and all six decode as
claimed. -/
theorem C5_witness :
    (classifySpec "true" = .one .BOOLEAN ∨ classifySpec "true" = .one .NAME)
    ∧ classifySpec "True" = .one .NAME ∧ classifySpec "TRUE" = .one .NAME
    ∧ classifySpec "none" = .one .NAME ∧ classifySpec "None" = .one .NAME
    ∧ (classifySpec "null" = .one .BOOLEAN ∨ classifySpec "null" = .one .NAME)
    ∧ (convertInFlask classifySpec gettzEmpty (.str "true") = .ok (.bool true)
       ∧ convertInFlask classifySpec gettzEmpty (.str "True") = .ok (.bool true)
       ∧ convertInFlask classifySpec gettzEmpty (.str "TRUE") = .ok (.bool true)
       ∧ convertInFlask classifySpec gettzEmpty (.str "none") = .ok .none
       ∧ convertInFlask classifySpec gettzEmpty (.str "None") = .ok .none
       ∧ convertInFlask classifySpec gettzEmpty (.str "null") = .ok .none) :=
  ⟨Or.inl rfl, rfl, rfl, rfl, rfl, Or.inr rfl,
    C5_keywords classifySpec gettzEmpty (Or.inl rfl) rfl rfl rfl rfl (Or.inr rfl)⟩

/-- Claim C6: a date-time or time literal suffixed by `@` and a zone name
always decodes successfully, and the decoded value's offset is exactly
whatever the injected resolver returns for the zone name — a resolved
offset when the name is known, no offset when it is not; an unresolvable
zone name never produces an error. -/
theorem C6_zone (cl : String → Classified) (gettz : String → Option Int)
    (p q z : List Char) (y mo d h mi s h2 mi2 s2 : Nat)
    (hp : '@' ∉ p) (hq : '@' ∉ q) (hz : '@' ∉ z)
    (hparse : parseDateTimeChars p = some (y, mo, d, h, mi, s))
    (hqarse : parseTimeChars q = some (h2, mi2, s2))
    (hcl : cl (String.mk (p ++ '@' :: z)) = .one .DATETIME)
    (hcl2 : cl (String.mk (q ++ '@' :: z)) = .one .TIME) :
    convertInFlask cl gettz (.str (String.mk (p ++ '@' :: z)))
      = .ok (.datetime y mo d h mi s (gettz (String.mk z)))
    ∧ convertInFlask cl gettz (.str (String.mk (q ++ '@' :: z)))
      = .ok (.time h2 mi2 s2 (gettz (String.mk z))) := by
  constructor
  · have h0 : ¬(String.mk (p ++ '@' :: z)) = "" := by
      intro e
      have h3 : (p ++ '@' :: z) = ([] : List Char) := congrArg String.data e
      simp at h3
    rw [convertInFlask_str]
    unfold convertInFlaskStr
    rw [if_neg h0, hcl]
    exact dateTimeParseAt_zone gettz p z y mo d h mi s hp hz hparse
  · have h0 : ¬(String.mk (q ++ '@' :: z)) = "" := by
      intro e
      have h3 : (q ++ '@' :: z) = ([] : List Char) := congrArg String.data e
      simp at h3
    rw [convertInFlask_str]
    unfold convertInFlaskStr
    rw [if_neg h0, hcl2]
    exact timeParseAt_zone gettz q z h2 mi2 s2 hq hz hqarse

/-- Claim C6, witness: at the claim's examples, with a resolver knowing
only `Australia/Sydney` (+11:00): the Sydney-suffixed date-time and time
carry the offset, and the `Nowhere`-suffixed date-time still decodes, with
no offset. -/
theorem C6_witness :
    '@' ∉ ("2020-01-01T10:00:00" : String).data
    ∧ '@' ∉ ("Australia/Sydney" : String).data
    ∧ parseDateTimeChars ("2020-01-01T10:00:00" : String).data = some (2020, 1, 1, 10, 0, 0)
    ∧ convertInFlask classifySpec gettzSydney (.str "2020-01-01T10:00:00@Australia/Sydney")
        = .ok (.datetime 2020 1 1 10 0 0 (some 660))
    ∧ convertInFlask classifySpec gettzSydney (.str "10:00:00@Australia/Sydney")
        = .ok (.time 10 0 0 (some 660))
    ∧ convertInFlask classifySpec gettzSydney (.str "2020-01-01T10:00:00@Nowhere")
        = .ok (.datetime 2020 1 1 10 0 0 Option.none) := by
  refine ⟨by decide, by decide, by rfl, ?_, ?_, ?_⟩
  · exact (C6_zone classifySpec gettzSydney ("2020-01-01T10:00:00" : String).data
      ("10:00:00" : String).data ("Australia/Sydney" : String).data 2020 1 1 10 0 0 10 0 0
      (by decide) (by decide) (by decide) (by rfl) (by rfl) (by rfl) (by rfl)).1
  · exact (C6_zone classifySpec gettzSydney ("2020-01-01T10:00:00" : String).data
      ("10:00:00" : String).data ("Australia/Sydney" : String).data 2020 1 1 10 0 0 10 0 0
      (by decide) (by decide) (by decide) (by rfl) (by rfl) (by rfl) (by rfl)).2
  · exact (C6_zone classifySpec gettzSydney ("2020-01-01T10:00:00" : String).data
      ("10:00:00" : String).data ("Nowhere" : String).data 2020 1 1 10 0 0 10 0 0
      (by decide) (by decide) (by decide) (by rfl) (by rfl) (by rfl) (by rfl)).1

/-- Claim C7: the repository's only bare-string year-month parser tests
`thisValue == '-'` — the whole string against `'-'` — so a negative
literal keeps its sign, the subsequent "skip P" removes the `-`, and
`int('P1')` raises: `"-P1Y6M"` errors instead of parsing to −18 months.
Non-negative canonical literals do parse to `12 * years + months`. -/
theorem C7_ym_sign_bug :
    convertInFlask classifySpec gettzEmpty (.str "-P1Y6M") = .error .valueError
    ∧ convertInFlask classifySpec gettzEmpty (.str "P1Y6M") = .ok (.int 18)
    ∧ (∀ y m : Nat, ymDurParse (ymCanon y m) = .ok (.int (12 * y + m))) :=
  ⟨by rfl, by rfl, ymDurParse_canon⟩

/-- Claim C8, counterexample: the flask timedelta printer violates the
sign rule and drops the fraction — the −90-second duration prints with no
leading `-` and re-signed components (`P0DT0H59M30S`), and the
half-second duration prints as `P0DT0H0M0S`, losing the fraction
entirely. -/
theorem C8_counterexample :
    convertOutFlask (.timedelta (-90000)) = .str "P0DT0H59M30S"
    ∧ (flaskTdStr (-90000)).data.head? ≠ some '-'
    ∧ convertOutFlask (.timedelta 500) = .str "P0DT0H0M0S" := by
  refine ⟨?_, ?_, ?_⟩
  · rw [show convertOutFlask (.timedelta (-90000)) = .str (flaskTdStr (-90000)) from rfl,
      flaskTdStr_neg90]
  · rw [flaskTdStr_neg90]
    decide
  · rw [show convertOutFlask (.timedelta 500) = .str (flaskTdStr 500) from rfl,
      flaskTdStr_half]

/-- Claim C8, amended: the HTTPServer/questioner timedelta printer does
satisfy the claim — for every millisecond total it emits (inside the
escape wrapper) `-` exactly when the value is negative, followed by the
unsigned magnitude decomposed into days, hours, minutes and seconds by
successive division, with a six-digit fractional seconds field, and
re-decoding that text recovers the exact millisecond total — but the
flask printer does not (see the counterexample). -/
theorem C8_amended (ms : Int) (cl : String → Classified) (gettz : String → Option Int)
    (hcl : cl (srvTdStr ms) = .one .DTDURATION) :
    convertOutSrv (.timedelta ms) = .str ("@\"" ++ srvTdStr ms ++ "\"")
    ∧ convertOutQst (.timedelta ms) = .str ("@\"" ++ srvTdStr ms ++ "\"")
    ∧ (srvTdStr ms).data = dtCanon (decide (ms < 0)) (ms.natAbs / 86400000)
        (ms.natAbs / 3600000 % 24) (ms.natAbs / 60000 % 60) (ms.natAbs / 1000 % 60)
        (ms.natAbs % 1000 * 1000)
    ∧ convertInFlaskStr cl gettz (srvTdStr ms) = .ok (.timedelta ms) :=
  ⟨rfl, rfl, srvTdStr_data ms, flask_parse_srvTdStr ms cl gettz hcl⟩

/-- Claim C8, witness at the 3d4h5m6s duration (273906000 ms): the printed
text is classified as one day-time-duration token and the round trip
recovers the exact millisecond total. -/
theorem C8_witness :
    classifySpec (srvTdStr 273906000) = .one .DTDURATION
    ∧ (convertOutSrv (.timedelta 273906000) = .str ("@\"" ++ srvTdStr 273906000 ++ "\"")
       ∧ convertOutQst (.timedelta 273906000) = .str ("@\"" ++ srvTdStr 273906000 ++ "\"")
       ∧ (srvTdStr 273906000).data
           = dtCanon (decide ((273906000 : Int) < 0)) ((273906000 : Int).natAbs / 86400000)
               ((273906000 : Int).natAbs / 3600000 % 24) ((273906000 : Int).natAbs / 60000 % 60)
               ((273906000 : Int).natAbs / 1000 % 60) ((273906000 : Int).natAbs % 1000 * 1000)
       ∧ convertInFlaskStr classifySpec gettzEmpty (srvTdStr 273906000)
           = .ok (.timedelta 273906000)) := by
  have hs : srvTdStr 273906000 = "P3DT4H5M6.000000S" := by
    rw [srvTdStr_eq]
    decide
  have hcl : classifySpec (srvTdStr 273906000) = .one .DTDURATION := by
    rw [hs]
    rfl
  exact ⟨hcl, C8_amended 273906000 classifySpec gettzEmpty hcl⟩

/-- Claim C9, counterexample: decoding the wrapped literal `@"!!"`, whose
inner text fails to parse, yields a String that still begins with the
escape prefix `@"` — the original wrapped string is returned unchanged. -/
theorem C9_counterexample :
    convertInSrv (sFeelParseModel gettzEmpty) (.str "@\"!!\"") = .str "@\"!!\""
    ∧ ("@\"!!\"" : String).data.take 2 = ['@', '"'] :=
  ⟨rfl, by decide⟩

/-- Claim C9, amended: the HTTPServer/questioner `convertIn` hands the
inner text of an `@"..."`-shaped string to the external parser; when the
parser rejects the inner text, the original wrapped string is returned
unchanged — so the decoded String then does begin with the escape prefix
`@"` — and when the parser accepts it, the parser's value replaces the
wrapped string. -/
theorem C9_amended (sfp : String → Except Unit PyVal) (s : String)
    (hat : isAtString s = true) :
    (∀ e : Unit, sfp (String.mk ((s.data.drop 2).dropLast)) = .error e →
      convertInSrv sfp (.str s) = .str s ∧ s.data.take 2 = ['@', '"'])
    ∧ (∀ v : PyVal, sfp (String.mk ((s.data.drop 2).dropLast)) = .ok v →
      convertInSrv sfp (.str s) = v) := by
  constructor
  · intro e he
    constructor
    · rw [convertInSrv_atString sfp s hat]
      exact convertAtString_error sfp s e he
    · have h2 := hat
      simp only [isAtString, Bool.and_eq_true, decide_eq_true_eq] at h2
      exact h2.1
  · intro v hv
    rw [convertInSrv_atString sfp s hat]
    exact convertAtString_ok sfp s v hv

/-- Claim C9, witness: at the wrapped string `@"!!"` — whose inner text
the modelled external parser rejects, so the wrapped string survives
decode unchanged, prefix included. -/
theorem C9_witness :
    isAtString "@\"!!\"" = true
    ∧ ((∀ e : Unit, sFeelParseModel gettzEmpty
          (String.mk ((("@\"!!\"" : String).data.drop 2).dropLast)) = .error e →
        convertInSrv (sFeelParseModel gettzEmpty) (.str "@\"!!\"") = .str "@\"!!\""
          ∧ ("@\"!!\"" : String).data.take 2 = ['@', '"'])
       ∧ (∀ v : PyVal, sFeelParseModel gettzEmpty
          (String.mk ((("@\"!!\"" : String).data.drop 2).dropLast)) = .ok v →
        convertInSrv (sFeelParseModel gettzEmpty) (.str "@\"!!\"") = v)) :=
  ⟨by decide, C9_amended (sFeelParseModel gettzEmpty) "@\"!!\"" (by decide)⟩

/-- Claim C10: the Range branch of the Wrapped encoders omits the closing
quote: the tuple `('[', 1.0, 10.0, ']')` encodes (in both the HTTPServer
and the questioner variant) to `@"[1.0 .. 10.0]`, a string that does not
end with `"`, and feeding it back through the decoder leaves it as that
string instead of re-creating the Range. -/
theorem C10_range_missing_quote :
    convertOutSrv (.range "[" (.num 1) (.num 10) "]") = .str "@\"[1.0 .. 10.0]"
    ∧ convertOutQst (.range "[" (.num 1) (.num 10) "]") = .str "@\"[1.0 .. 10.0]"
    ∧ ("@\"[1.0 .. 10.0]").data.getLast? ≠ some '"'
    ∧ convertInSrv (sFeelParseModel gettzEmpty) (.str "@\"[1.0 .. 10.0]")
        = .str "@\"[1.0 .. 10.0]" := by
  have h1 : pyStr (.num 1) = "1.0" := by
    show floatRepr 1 = "1.0"
    rw [show (1 : ℚ) = ((1 : ℕ) : ℚ) by norm_num, floatRepr_nat]
    rfl
  have h10 : pyStr (.num 10) = "10.0" := by
    show floatRepr 10 = "10.0"
    rw [show (10 : ℚ) = ((10 : ℕ) : ℚ) by norm_num, floatRepr_nat]
    rfl
  refine ⟨?_, ?_, by decide, by rfl⟩
  · rw [show convertOutSrv (.range "[" (.num 1) (.num 10) "]")
      = .str ("@\"" ++ "[" ++ pyStr (.num 1) ++ " .. " ++ pyStr (.num 10) ++ "]") from rfl,
      h1, h10]
    rfl
  · rw [show convertOutQst (.range "[" (.num 1) (.num 10) "]")
      = .str ("@\"" ++ "[" ++ pyStr (.num 1) ++ " .. " ++ pyStr (.num 10) ++ "]") from rfl,
      h1, h10]
    rfl

end DecisionCentral
